import Mathlib

/-!
Shallow embedding of `rinpy/rinex.py` (RINEX observation-file decoder).

Conventions used throughout:
* Python strings are modelled as `List Char`; `s[a:b]` becomes `pySlice`,
  which, like Python, silently truncates at the end of the string.
* Python `int(...)` / `float(...)` are modelled by `pyInt` / `pyFloat`,
  returning `none` where Python raises `ValueError`.  Floating point values
  are modelled by exact rationals; every concrete input evaluated in this
  file has a short dyadic or decimal fraction for which binary64 arithmetic
  performed by the real program is exact, so the model agrees with the
  program at those points.
* `np.nan` cells are modelled as `none : Option ℚ` (the not-a-number
  sentinel); a present value is `some q`.
* Code that can raise runs in the `Py` result type: `.ok` for a normal
  return, `.exn` for a raised exception, `.stuck` for non-termination (or
  for degenerate index arithmetic the model does not follow).  Error
  message strings are abbreviated; only the exception kind and, for
  `KeyError`, the missing key are modelled.
-/

set_option maxHeartbeats 1000000

namespace Rinpy

/-- Python whitespace (the characters `str.strip`, `str.split` and `\s` treat
as space in the ASCII range, which is all that occurs in RINEX files). -/
def pyIsSpace (c : Char) : Bool :=
  c = ' ' || c = '\t' || c = '\n' || c = '\r' || c = '\x0b' || c = '\x0c'

/-- Python `s.lstrip()`. -/
def pyLstrip (s : List Char) : List Char := s.dropWhile pyIsSpace

/-- Python `s.rstrip()`. -/
def pyRstrip (s : List Char) : List Char := (s.reverse.dropWhile pyIsSpace).reverse

/-- Python `s.strip()`. -/
def pyStrip (s : List Char) : List Char := pyRstrip (pyLstrip s)

theorem dropWhile_length_le {α : Type} (p : α → Bool) :
    (l : List α) → (l.dropWhile p).length ≤ l.length
  | [] => le_refl _
  | a :: t => by
    rw [List.dropWhile_cons]
    split
    · exact le_trans (dropWhile_length_le p t) (by simp)
    · exact le_refl _

/-- Single-pass worker for `pySplit`; `acc` is the current token reversed
(structural recursion so that concrete inputs evaluate in the kernel). -/
def pySplitAux : List Char → List Char → List (List Char)
  | [], acc => if acc.isEmpty then [] else [acc.reverse]
  | c :: cs, acc =>
    if pyIsSpace c then
      if acc.isEmpty then pySplitAux cs [] else acc.reverse :: pySplitAux cs []
    else pySplitAux cs (c :: acc)

/-- Python `s.split()` (split on runs of whitespace, dropping empty parts). -/
def pySplit (s : List Char) : List (List Char) := pySplitAux s []

/-- Does `big` start with `pat`? (helper for substring containment). -/
def listStartsWith : List Char → List Char → Bool
  | [], _ => true
  | _ :: _, [] => false
  | p :: ps, c :: cs => p = c && listStartsWith ps cs

/-- Python `pat in s` (substring containment). -/
def containsSub (pat : List Char) : List Char → Bool
  | [] => pat.isEmpty
  | c :: cs => listStartsWith pat (c :: cs) || containsSub pat cs

/-- ASCII digit test (`\d` of the `re` pattern, `str.isdigit` range used here). -/
def isDigitCh (c : Char) : Bool := '0' ≤ c && c ≤ '9'

/-- Numeric value of a digit string. -/
def natVal (ds : List Char) : Nat := ds.foldl (fun a c => a * 10 + (c.toNat - 48)) 0

/-- Parse a non-empty all-digit string. -/
def digitsVal (ds : List Char) : Option Nat :=
  if ds ≠ [] && ds.all isDigitCh then some (natVal ds) else none

/-- Python `int(s)` for a decimal string: surrounding whitespace and a sign
are allowed; `none` models `ValueError`. -/
def pyInt (s : List Char) : Option Int :=
  match pyStrip s with
  | [] => none
  | '-' :: ds => (digitsVal ds).map (fun n => -(n : Int))
  | '+' :: ds => (digitsVal ds).map (fun n => (n : Int))
  | ds => (digitsVal ds).map (fun n => (n : Int))

/-!
Rational arithmetic helpers.  The library addition/multiplication on `ℚ`
is sealed `@[irreducible]`, which blocks kernel evaluation of concrete
inputs, so the arithmetic used by the model is spelled out through
`Rat.divInt`, which normalizes; each operation below produces exactly the
usual rational value.
-/

def qOfNat (n : Nat) : ℚ := Rat.divInt (Int.ofNat n) 1

def qOfInt (n : Int) : ℚ := Rat.divInt n 1

def qAdd (a b : ℚ) : ℚ :=
  Rat.divInt (a.num * Int.ofNat b.den + b.num * Int.ofNat a.den) (Int.ofNat (a.den * b.den))

def qSub (a b : ℚ) : ℚ :=
  Rat.divInt (a.num * Int.ofNat b.den - b.num * Int.ofNat a.den) (Int.ofNat (a.den * b.den))

def qMul (a b : ℚ) : ℚ := Rat.divInt (a.num * b.num) (Int.ofNat (a.den * b.den))

def qNeg (a : ℚ) : ℚ := Rat.divInt (-a.num) (Int.ofNat a.den)

/-- `10 ^ e` for an integer exponent. -/
def qPow10 (e : Int) : ℚ :=
  if 0 ≤ e then qOfNat (10 ^ e.toNat) else Rat.divInt 1 (Int.ofNat (10 ^ (-e).toNat))

/-- Value of a fractional digit string (digits after the decimal point). -/
def fracVal (ds : List Char) : ℚ :=
  Rat.divInt (Int.ofNat (natVal ds)) (Int.ofNat (10 ^ ds.length))

/-- Exponent part of a float literal (after `e`/`E`). -/
def parseExpPart (s : List Char) : Option Int :=
  match s with
  | '-' :: ds => (digitsVal ds).map (fun n => -(n : Int))
  | '+' :: ds => (digitsVal ds).map (fun n => (n : Int))
  | ds => (digitsVal ds).map (fun n => (n : Int))

/-- Mantissa of a float literal: `digits`, `digits.digits`, `digits.`, or
`.digits`; returns the value and the unconsumed rest. -/
def parseMantissa (s : List Char) : Option (ℚ × List Char) :=
  let ip := s.takeWhile isDigitCh
  let r1 := s.dropWhile isDigitCh
  match r1 with
  | '.' :: r2 =>
    let fp := r2.takeWhile isDigitCh
    let r3 := r2.dropWhile isDigitCh
    if ip.isEmpty && fp.isEmpty then none
    else some (qAdd (qOfNat (natVal ip)) (fracVal fp), r3)
  | _ => if ip.isEmpty then none else some (qOfNat (natVal ip), r1)

/-- Unsigned float literal with optional exponent. -/
def pyFloatUnsigned (s : List Char) : Option ℚ :=
  match parseMantissa s with
  | none => none
  | some (m, r) =>
    match r with
    | [] => some m
    | 'e' :: es => (parseExpPart es).map (fun e => qMul m (qPow10 e))
    | 'E' :: es => (parseExpPart es).map (fun e => qMul m (qPow10 e))
    | _ => none

/-- Python `float(s)` for the decimal literals that occur in RINEX data
(sign, digits, optional point and exponent); `none` models `ValueError`;
in particular a blank or empty field is `none`. -/
def pyFloat (s : List Char) : Option ℚ :=
  match pyStrip s with
  | '-' :: r => (pyFloatUnsigned r).map (fun q => qNeg q)
  | '+' :: r => pyFloatUnsigned r
  | r => pyFloatUnsigned r

/-- Floor of a rational (`num` and `den` are reduced and `den > 0`, so
floor division of them is the floor). -/
def floorQ (q : ℚ) : Int := Int.fdiv q.num (Int.ofNat q.den)

/-- Python `int(x)` on a float: truncation toward zero (`0 ≤ q` is
equivalent to `0 ≤ q.num` since the denominator is positive). -/
def truncQ (q : ℚ) : Int := if 0 ≤ q.num then floorQ q else -floorQ (qNeg q)

/-- Python `x % 1` on a float (result carries the sign of the divisor,
so this is `x - floor x`). -/
def pyMod1 (q : ℚ) : ℚ := qSub q (qOfInt (floorQ q))

/-- Python `s[a:b]` for non-negative bounds. -/
def pySlice (s : List Char) (a b : Nat) : List Char := (s.drop a).take (b - a)

/-- Python `s[i]`; `none` models `IndexError`. -/
def pyCharAt (s : List Char) (i : Nat) : Option Char := s.get? i

/-- `lines[i]`, with the empty string as default for the rare out-of-range
accesses the model does not track (documented at each use site). -/
def lineAt (lines : List (List Char)) (i : Nat) : List Char := lines.getD i []

/-- Python `l[a:b]` on a list, non-negative bounds. -/
def pyListSlice {α : Type} (l : List α) (a b : Nat) : List α := (l.drop a).take (b - a)

/-- Association-list lookup (Python `d[k]`, first binding wins). -/
def lookupA {α β : Type} [DecidableEq α] : List (α × β) → α → Option β
  | [], _ => none
  | (k, v) :: t, key => if k = key then some v else lookupA t key

/-- Python `d[k] = v`: overwrite in place if present, append otherwise
(insertion-ordered dict). -/
def updateA {α β : Type} [DecidableEq α] (m : List (α × β)) (k : α) (v : β) :
    List (α × β) :=
  if (lookupA m k).isSome then m.map (fun p => if p.1 = k then (k, v) else p)
  else m ++ [(k, v)]

/-- Exceptions of the program that the claims distinguish. -/
inductive PyErr : Type where
  | keyError : List Char → PyErr
  | valueError : PyErr
  | indexError : PyErr
  | structError : PyErr
  | rinexError : List Char → PyErr
deriving DecidableEq

/-- Result of running a piece of the program: normal return, raised
exception, or non-termination / model give-up. -/
inductive Py (α : Type) : Type where
  | ok : α → Py α
  | exn : PyErr → Py α
  | stuck : Py α
deriving DecidableEq

def Py.bind {α β : Type} : Py α → (α → Py β) → Py β
  | .ok a, f => f a
  | .exn e, _ => .exn e
  | .stuck, _ => .stuck

instance : Monad Py where
  pure := Py.ok
  bind := Py.bind

/-- Lift an `Option` into `Py`, raising `e` on `none`. -/
def ofOption {α : Type} (o : Option α) (e : PyErr) : Py α :=
  match o with
  | some a => .ok a
  | none => .exn e

/-! ## Header-label mapping and version sniffing -/

abbrev HeaderMap := List (List Char × List Char)

def endOfHeaderMarker : List Char := ("END OF HEADER".toList)

def versionMarker : List Char := ("RINEX VERSION / TYPE".toList)

def obsTypesLabel : List Char := ("# / TYPES OF OBSERV".toList)

def timeOfFirstObsLabel : List Char := ("TIME OF FIRST OBS".toList)

def sysObsLabel : List Char := ("SYS / # / OBS TYPES".toList)

/-- Abbreviated message of the missing-version `RinexError` (only the error
kind matters to the claims, not the exact text). -/
def missingVersionMsg : List Char := ("No RINEX VERSION TYPE found.".toList)

/-- Loop body of `getrinexversion` after the first `readline`: each further
line is checked for the end-of-header marker first, then for the version
marker.  When the list of lines is exhausted, Python `readline` returns the
empty string forever; the empty string contains neither marker, so the
`while` loop never exits — this outcome is `.stuck`. -/
def versionLoop : List (List Char) → Py (List Char)
  | [] => .stuck
  | line :: rest =>
    if containsSub endOfHeaderMarker line then .exn (.rinexError missingVersionMsg)
    else if containsSub versionMarker line then .ok (pyStrip (line.take 9))
    else versionLoop rest

/-- `getrinexversion`: scan the file for the version marker; the first line
is tested only against the version marker (the end-of-header test of the
loop body runs from the second line on, exactly as in the source). -/
def getrinexversion (lines : List (List Char)) : Py (List Char) :=
  match lines with
  | [] => .stuck
  | line :: rest =>
    if containsSub versionMarker line then .ok (pyStrip (line.take 9))
    else versionLoop rest

/-- Python `header[label] = ...` / `header[label] += "\n" + ...` of the two
header readers: a new label is appended, a repeated label concatenates its
value text with a newline. -/
def headerInsert (h : HeaderMap) (lab val : List Char) : HeaderMap :=
  match lookupA h lab with
  | some old => updateA h lab (old ++ '\n' :: val)
  | none => h ++ [(lab, val)]

/-- The `for i, line in enumerate(lines)` header loop shared by both header
readers: consume lines until one containing the end-of-header marker, label
at columns 60-80 (stripped), value at columns 0-60 (not stripped).  Returns
the mapping and the index of the first line after the header (when the
marker never occurs, Python leaves `i` at the last line index; the `[]`
case mirrors that with `i - 1`). -/
def headerLoop : List (List Char) → Nat → HeaderMap → HeaderMap × Nat
  | [], i, h => (h, i - 1)
  | line :: rest, i, h =>
    if containsSub endOfHeaderMarker line then (h, i + 1)
    else headerLoop rest (i + 1) (headerInsert h (pyStrip (pySlice line 60 80)) (pySlice line 0 60))

def buildHeader (lines : List (List Char)) : HeaderMap × Nat := headerLoop lines 0 []

/-! ## Epoch timestamps -/

/-- The fields `datetime.datetime(...)` is called with (validation of field
ranges is not modelled; no claim concerns invalid dates). -/
structure PyDateTime where
  year : Int
  month : Int
  day : Int
  hour : Int
  minute : Int
  second : Int
  microsecond : Int
deriving DecidableEq

/-- The `datetime.datetime(..., second=int(float(second)), microsecond=
int(float(second) % 1 * 100000))` construction shared by both scanners.
Note the literal `100000` from the source. -/
def datetimeOfFields (y mo d h mi : Int) (sec : ℚ) : PyDateTime :=
  ⟨y, mo, d, h, mi, truncQ sec, truncQ (qMul (pyMod1 sec) (qOfNat 100000))⟩

/-- Timestamp of a v2.1x epoch line: two-digit year at columns 1-3 added to
the century, then month/day/hour/minute and the seconds field at 16-26. -/
def epochDatetimeV21 (century : Int) (line : List Char) : Option PyDateTime := do
  let y ← pyInt (pySlice line 1 3)
  let mo ← pyInt (pySlice line 4 6)
  let d ← pyInt (pySlice line 7 9)
  let h ← pyInt (pySlice line 10 12)
  let mi ← pyInt (pySlice line 13 15)
  let sec ← pyFloat (pySlice line 16 26)
  pure (datetimeOfFields (century + y) mo d h mi sec)

/-- Timestamp of a v3.x epoch line: four-digit year at columns 2-6, then
month/day/hour/minute and the seconds field at 19-30. -/
def epochDatetimeV3 (line : List Char) : Option PyDateTime := do
  let y ← pyInt (pySlice line 2 6)
  let mo ← pyInt (pySlice line 7 9)
  let d ← pyInt (pySlice line 10 12)
  let h ← pyInt (pySlice line 13 15)
  let mi ← pyInt (pySlice line 16 18)
  let sec ← pyFloat (pySlice line 19 30)
  pure (datetimeOfFields y mo d h mi sec)

/-! ## v2.1x epoch scanner -/

/-- One alternative of the epoch-start pattern group `(\s{2}\d|\s\d{2})`. -/
def grpV21 (a b c : Char) : Bool :=
  (pyIsSpace a && pyIsSpace b && isDigitCh c) ||
    (pyIsSpace a && isDigitCh b && isDigitCh c)

/-- `re.match` of the pattern `(\s{2}\d|\s\d{2}){2}` against `line[:6]`. -/
def patMatchV21 (s : List Char) : Bool :=
  match s with
  | a :: b :: c :: d :: e :: f :: _ => grpV21 a b c && grpV21 d e f
  | _ => false

/-- The satellite-identifier slice `lines[i][32+k*3 : 35+k*3]`. -/
def satSliceV21 (line : List Char) (k : Nat) : List Char :=
  pySlice line (32 + k * 3) (35 + k * 3)

/-- Satellite-list extraction of an epoch with `numsats` satellites starting
at line `i`: more than 12 satellites continue on the next physical line
after every 12th identifier (`i` is advanced when `s % 12 == 0`), at most 12
are read from the single line `i`.  Out-of-range line accesses (a truncated
file) are not tracked: `lineAt` yields the empty string there. -/
def collectSatsV21 (lines : List (List Char)) (i numsats : Nat) : List (List Char) :=
  if numsats > 12 then
    (List.range numsats).map (fun s => satSliceV21 (lineAt lines (i + s / 12)) (s % 12))
  else
    (List.range numsats).map (fun s => satSliceV21 (lineAt lines i) s)

/-- Accumulators of the v2.1x scanning loop. -/
structure ScanV21Out where
  headerlines : List Nat
  headerlengths : List Int
  obstimes : List PyDateTime
  satlists : List (List (List Char))
deriving DecidableEq

/-- The `while i < len(lines)` loop of `_readheader_v21x`.  Fuel-indexed:
`.stuck` on fuel exhaustion or a negative jump (in Python such degenerate
index arithmetic would loop or wrap; no claim concerns it).  Exceptions
model the `int`/`float`/indexing calls that can raise. -/
def scanV21Loop (lines : List (List Char)) (rowpersat : Nat) (century : Int) :
    Nat → Nat → ScanV21Out → Py ScanV21Out
  | 0, _, _ => .stuck
  | fuel + 1, i, acc =>
    if _h : i < lines.length then
      let line := lineAt lines i
      if patMatchV21 (pySlice line 0 6) then
        match pyCharAt line 28 with
        | none => .exn .indexError
        | some c =>
          match pyInt [c] with
          | none => .exn .valueError
          | some flag =>
            if flag = 0 ∨ flag = 1 ∨ flag = 6 then
              match epochDatetimeV21 century line with
              | none => .exn .valueError
              | some dt =>
                match pyInt (pySlice line 29 32) with
                | none => .exn .valueError
                | some numsats =>
                  let sv := collectSatsV21 lines i numsats.toNat
                  let acc2 : ScanV21Out :=
                    ⟨acc.headerlines ++ [i], acc.headerlengths ++ [1 + Int.fdiv (numsats - 1) 12],
                     acc.obstimes ++ [dt], acc.satlists ++ [sv]⟩
                  let iNext : Int :=
                    (i : Int) + (if numsats > 12 then Int.fdiv (numsats - 1) 12 else 0) +
                      numsats * (rowpersat : Int) + 1
                  if iNext < 0 then .stuck
                  else scanV21Loop lines rowpersat century fuel iNext.toNat acc2
            else
              match pyInt (pySlice line 30 32) with
              | none => .exn .valueError
              | some skip =>
                let iNext : Int := (i : Int) + skip + 1
                if iNext < 0 then .stuck
                else scanV21Loop lines rowpersat century fuel iNext.toNat acc
      else scanV21Loop lines rowpersat century fuel (i + 1) acc
    else .ok acc

/-- Python-set insertion for the `satset` union (content as a
first-occurrence-ordered duplicate-free list; Python set iteration order is
arbitrary, and nothing order-dependent downstream survives the later
`sort`). -/
def insertSet (a : List (List Char)) (x : List Char) : List (List Char) :=
  if x ∈ a then a else a ++ [x]

def unionSet (a b : List (List Char)) : List (List Char) := b.foldl insertSet a

/-- `satset = satset.union(satlist)` over all satellite lists. -/
def satsetOf (satlists : List (List (List Char))) : List (List Char) :=
  satlists.foldl unionSet []

/-- `rowpersat = 1 + len(header['# / TYPES OF OBSERV'][6:].split()) // 5`. -/
def rowpersatOf (header : HeaderMap) : Py Nat := do
  let v ← ofOption (lookupA header obsTypesLabel) (.keyError obsTypesLabel)
  pure (1 + (pySplit (v.drop 6)).length / 5)

/-- `century = int(timeoffirstobs[0][:2] + '00')`. -/
def centuryOf (header : HeaderMap) : Py Int := do
  let v ← ofOption (lookupA header timeOfFirstObsLabel) (.keyError timeOfFirstObsLabel)
  let tok ← ofOption ((pySplit v).get? 0) .indexError
  ofOption (pyInt (tok.take 2 ++ ("00".toList))) .valueError

structure HeaderOutV21 where
  header : HeaderMap
  scan : ScanV21Out
  satset : List (List Char)
deriving DecidableEq

/-- `_readheader_v21x`. -/
def readheaderV21 (lines : List (List Char)) : Py HeaderOutV21 := do
  let hp := buildHeader lines
  let rps ← rowpersatOf hp.1
  let cent ← centuryOf hp.1
  let scan ← scanV21Loop lines rps cent (lines.length + 1) hp.2 ⟨[], [], [], []⟩
  pure ⟨hp.1, scan, satsetOf scan.satlists⟩

/-! ## v3.x epoch scanner -/

structure ScanV3Out where
  headerlines : List Nat
  obstimes : List PyDateTime
  satlists : List (List (List Char))
deriving DecidableEq

/-- The `while i < len(lines)` loop of `_readheader_v3`.  Epoch-start lines
carry a leading `>`; the status flag is the character at column 31; a
non-decodable flag reads `skip` from columns 30-32 (which overlap the flag
column itself) and jumps `skip + 1` lines. -/
def scanV3Loop (lines : List (List Char)) :
    Nat → Nat → ScanV3Out → Py ScanV3Out
  | 0, _, _ => .stuck
  | fuel + 1, i, acc =>
    if _h : i < lines.length then
      let line := lineAt lines i
      match pyCharAt line 0 with
      | none => .exn .indexError
      | some c0 =>
        if c0 = '>' then
          match pyCharAt line 31 with
          | none => .exn .indexError
          | some c =>
            match pyInt [c] with
            | none => .exn .valueError
            | some flag =>
              if flag = 0 ∨ flag = 1 ∨ flag = 6 then
                match epochDatetimeV3 line with
                | none => .exn .valueError
                | some dt =>
                  match pyInt (pySlice line 33 35) with
                  | none => .exn .valueError
                  | some numsats =>
                    let sv := (List.range numsats.toNat).map
                      (fun j => pySlice (lineAt lines (i + 1 + j)) 0 3)
                    let acc2 : ScanV3Out :=
                      ⟨acc.headerlines ++ [i], acc.obstimes ++ [dt], acc.satlists ++ [sv]⟩
                    let iNext : Int := (i : Int) + numsats + 1
                    if iNext < 0 then .stuck
                    else scanV3Loop lines fuel iNext.toNat acc2
              else
                match pyInt (pySlice line 30 32) with
                | none => .exn .valueError
                | some skip =>
                  let iNext : Int := (i : Int) + skip + 1
                  if iNext < 0 then .stuck
                  else scanV3Loop lines fuel iNext.toNat acc
        else scanV3Loop lines fuel (i + 1) acc
    else .ok acc

structure HeaderOutV3 where
  header : HeaderMap
  scan : ScanV3Out
  satset : List (List Char)
deriving DecidableEq

/-- `_readheader_v3`. -/
def readheaderV3 (lines : List (List Char)) : Py HeaderOutV3 := do
  let hp := buildHeader lines
  let scan ← scanV3Loop lines (lines.length + 1) hp.2 ⟨[], [], []⟩
  pure ⟨hp.1, scan, satsetOf scan.satlists⟩

/-! ## Record decoders -/

/-- `_converttofloat`: `float(numberstr)`, with `np.nan` (here `none`) on
`ValueError`. -/
def converttofloat (numberstr : List Char) : Option ℚ := pyFloat numberstr

/-- A dense per-constellation array, epoch-major: epoch x satellite x
observable; `none` is the not-a-number sentinel. -/
abbrev Grid := List (List (List (Option ℚ)))

/-- `np.nan * np.zeros((ne, ns, no))`. -/
def nanGrid (ne ns no : Nat) : Grid :=
  List.replicate ne (List.replicate ns (List.replicate no (none : Option ℚ)))

/-- `arr[e, s, :] = row` (in-range writes only; an out-of-range `List.set`
is the identity where NumPy would raise, but every write performed by the
decoders is in range by construction of `nanGrid` and `prntoidx`). -/
def setCellRow (g : Grid) (e s : Nat) (row : List (Option ℚ)) : Grid :=
  g.set e ((g.getD e []).set s row)

/-- `"{:<80}".format(...)`: right-pad to 80 columns. -/
def pad80 (s : List Char) : List Char := s ++ List.replicate (80 - s.length) ' '

/-- `struct.Struct('14s 2x ' * n).unpack_from(buf)`: needs `16 * n` bytes
(`struct.error` otherwise, modelled `.exn .structError`) and yields the `n`
14-character fields at offsets `16 * k`. -/
def unpackV21 (n : Nat) (buf : List Char) : Py (List (List Char)) :=
  if buf.length < 16 * n then .exn .structError
  else .ok ((List.range n).map (fun k => pySlice buf (16 * k) (16 * k + 14)))

/-- `lines[headerstart+headerlength+rowpersat*i : headerstart+headerlength+
rowpersat*(i+1)]`: the physical lines holding satellite `i` of an epoch. -/
def satLinesV21 (lines : List (List Char)) (headerstart headerlength rowpersat i : Nat) :
    List (List Char) :=
  pyListSlice lines (headerstart + headerlength + rowpersat * i)
    (headerstart + headerlength + rowpersat * (i + 1))

/-- `datastring = ''.join("{:<80}".format(line.rstrip()) for line in ...)`. -/
def datastringV21 (rawLines : List (List Char)) : List Char :=
  (rawLines.map (fun l => pad80 (pyRstrip l))).flatten

/-- Decode one satellite of a v2.1x epoch: unpack the padded concatenation
into 14-character fields and convert each with `_converttofloat`. -/
def decodeSatV21 (n : Nat) (rawLines : List (List Char)) : Py (List (Option ℚ)) := do
  let fields ← unpackV21 n (datastringV21 rawLines)
  pure (fields.map converttofloat)

/-- `set(letter for letter in set(''.join(satset)) if letter.isalpha())`:
the alphabetic characters occurring anywhere in any satellite identifier
(as a duplicate-free list). -/
def lettersOf (satset : List (List Char)) : List Char :=
  ((satset.flatten).filter Char.isAlpha).dedup

/-- One iteration of the `for sat in satset:
systemsatlists[sat[0]].append(int(sat[1:]))` loop. -/
def appendStep (m : List (Char × List Int)) (sat : List Char) : Py (List (Char × List Int)) := do
  let c ← ofOption (pyCharAt sat 0) .indexError
  let prn ← ofOption (pyInt (sat.drop 1)) .valueError
  let cur ← ofOption (lookupA m c) (.keyError [c])
  pure (updateA m c (cur ++ [prn]))

/-- The whole `for sat in satset` loop, starting from empty per-letter
lists. -/
def appendPrns (letters : List Char) (satset : List (List Char)) :
    Py (List (Char × List Int)) :=
  satset.foldlM appendStep (letters.map (fun l => (l, ([] : List Int))))

/-- The PRNs contributed to constellation `l` by the identifiers of
`satset`, in `satset` order: those `int(sat[1:])` whose `sat[0]` is `l`. -/
def prnsFor (satset : List (List Char)) (l : Char) : List Int :=
  satset.filterMap (fun s =>
    match pyCharAt s 0, pyInt (s.drop 1) with
    | some c, some p => if c = l then some p else none
    | _, _ => none)

/-- Python `list.sort()` on integers (ascending, stable). -/
def sortInts (l : List Int) : List Int := List.insertionSort (fun a b => a ≤ b) l

/-- `prntoidx[letter] = {prn: idx for idx, prn in enumerate(...)}` as an
association list with one binding per list entry and first-binding lookup.
A Python dict collapses duplicate keys (last value wins), so this is exact
(same size, same key set, same lookups) precisely when the enumerated PRNs
are pairwise distinct; `satset` is a set of identifier *strings*, and two
distinct strings can parse to the same PRN (`"G01"` and `"G 1"`), so
statements that depend on per-PRN size or index carry that
duplicate-freeness as an explicit hypothesis, and `enumIdxDict` below is
the exact dict semantics used where the duplicate case itself matters. -/
def enumIdx (l : List Int) : List (Int × Nat) :=
  (l.enum).map (fun p => (p.2, p.1))

/-- Python `dict` insertion `d[k] = v`: overwrite the binding in place when
the key is present, append a new binding (insertion order) otherwise. -/
def dictInsert (m : List (Int × Nat)) (k : Int) (v : Nat) : List (Int × Nat) :=
  if (lookupA m k).isSome then m.map (fun p => if p.1 = k then (k, v) else p)
  else m ++ [(k, v)]

/-- The exact Python-dict semantics of
`{prn: idx for idx, prn in enumerate(l)}`: duplicate PRNs collapse onto a
single key, the last index wins, and the size is the number of distinct
PRNs.  It agrees with `enumIdx l` exactly when `l` has no duplicates. -/
def enumIdxDict (l : List Int) : List (Int × Nat) :=
  (l.enum).foldl (fun m p => dictInsert m p.2 p.1) []

structure BlocksOut where
  systemdata : List (Char × Grid)
  systemsatlists : List (Char × List Int)
  prntoidx : List (Char × List (Int × Nat))
  obstypes : List (Char × List (List Char))
deriving DecidableEq

/-- One (epoch, satellite) write of `_readblocks_v21`: build the data
string, decode it, and store the row at `(iepoch, prntoidx[letter][prn])`. -/
def fillSatV21 (lines : List (List Char)) (nobstypes rowpersat : Nat)
    (prntoidx : List (Char × List (Int × Nat)))
    (headerstart : Nat) (headerlength : Int) (iepoch : Nat)
    (sd : List (Char × Grid)) (iOrd : Nat) (sat : List Char) : Py (List (Char × Grid)) :=
  if headerlength < 0 then .stuck
  else do
    let data ← decodeSatV21 nobstypes (satLinesV21 lines headerstart headerlength.toNat rowpersat iOrd)
    let c ← ofOption (pyCharAt sat 0) .indexError
    let prn ← ofOption (pyInt (sat.drop 1)) .valueError
    let pti ← ofOption (lookupA prntoidx c) (.keyError [c])
    let idx ← ofOption (lookupA pti prn) (.keyError [])
    let g ← ofOption (lookupA sd c) (.keyError [c])
    pure (updateA sd c (setCellRow g iepoch idx data))

/-- The `for iepoch, (headerstart, headerlength, satlist) in enumerate(zip(...))`
double loop of `_readblocks_v21`. -/
def fillV21 (lines : List (List Char)) (nobstypes rowpersat : Nat)
    (headerlines : List Nat) (headerlengths : List Int)
    (satlists : List (List (List Char)))
    (prntoidx : List (Char × List (Int × Nat)))
    (sd0 : List (Char × Grid)) : Py (List (Char × Grid)) :=
  ((headerlines.zip (headerlengths.zip satlists)).enum).foldlM
    (fun sd q =>
      (q.2.2.2.enum).foldlM
        (fun sd2 p => fillSatV21 lines nobstypes rowpersat prntoidx q.2.1 q.2.2.1 q.1 sd2 p.1 p.2)
        sd)
    sd0

/-- `np.sum(~np.isnan(arr[:, :, j])) > 0`: column `j` holds a non-sentinel
value somewhere. -/
def colHasValueB (g : Grid) (j : Nat) : Bool :=
  g.any (fun ep => ep.any (fun row => (row.getD j none).isSome))

/-- `kept_observables`: the indices of columns with at least one
non-sentinel value, in increasing order. -/
def keptObservables (g : Grid) (nobs : Nat) : List Nat :=
  (List.range nobs).filter (fun j => colHasValueB g j)

/-- `arr[:, :, kept]`: keep only the selected observable columns. -/
def colSelect (g : Grid) (ks : List Nat) : Grid :=
  g.map (fun ep => ep.map (fun row => ks.map (fun j => row.getD j none)))

/-- The final pruning loop of `_readblocks_v21`: for every constellation
select the populated columns of its array and the matching observable
names.  (The loop runs over the keys of `systemdata`; in the decoder those
coincide with the keys of `obstypes`, which is what the `lookupA`-driven
map reproduces.) -/
def pruneV21 (sd : List (Char × Grid)) (ot : List (Char × List (List Char))) (nobs : Nat) :
    List (Char × Grid) × List (Char × List (List Char)) :=
  (sd.map (fun p => (p.1, colSelect p.2 (keptObservables p.2 nobs))),
   ot.map (fun p => (p.1,
     match lookupA sd p.1 with
     | some g => (keptObservables g nobs).map (fun j => p.2.getD j [])
     | none => p.2)))

/-- `_readblocks_v21`. -/
def readblocksV21 (lines : List (List Char)) (header : HeaderMap)
    (headerlines : List Nat) (headerlengths : List Int)
    (satlists : List (List (List Char))) (satset : List (List Char)) :
    Py BlocksOut := do
  let v ← ofOption (lookupA header obsTypesLabel) (.keyError obsTypesLabel)
  let observables := pySplit (v.drop 6)
  let nobstypes := observables.length
  let rowpersat := 1 + nobstypes / 5
  let nepochs := headerlines.length
  let systemletters := lettersOf satset
  let ssl ← appendPrns systemletters satset
  let sorted := ssl.map (fun p => (p.1, sortInts p.2))
  let systemdata0 : List (Char × Grid) :=
    sorted.map (fun p => (p.1, nanGrid nepochs p.2.length nobstypes))
  let prntoidx : List (Char × List (Int × Nat)) := sorted.map (fun p => (p.1, enumIdx p.2))
  let obstypes0 : List (Char × List (List Char)) :=
    systemletters.map (fun l => (l, observables))
  let filled ← fillV21 lines nobstypes rowpersat headerlines headerlengths satlists
    prntoidx systemdata0
  let pr := pruneV21 filled obstypes0 nobstypes
  pure ⟨pr.1, sorted, prntoidx, pr.2⟩

/-- Python `value.splitlines()` for the newline-joined header values built
by `headerInsert` (only `\n` occurs as a separator there). -/
def splitlinesLC : List Char → List (List Char)
  | [] => []
  | c :: cs =>
    if c = '\n' then [] :: splitlinesLC cs
    else
      match splitlinesLC cs with
      | [] => [[c]]
      | l :: ls => (c :: l) :: ls

/-- The `SYS / # / OBS TYPES` parsing loop of `_readblocks_v3`: a line whose
first character is not a space opens a new constellation with the
observable names in `line[6:].split()`; a continuation line extends the
current constellation (`systemletter` starts as the empty string, so a
leading continuation line raises `KeyError`, modelled by the `none`
current-letter state). -/
def obsTypesLoopV3 : List (List Char) → List (Char × List (List Char)) → Option Char →
    Py (List (Char × List (List Char)))
  | [], ot, _ => .ok ot
  | line :: rest, ot, cur =>
    match pyCharAt line 0 with
    | none => .exn .indexError
    | some c0 =>
      if c0 ≠ ' ' then
        obsTypesLoopV3 rest (updateA ot c0 (pySplit (line.drop 6))) (some c0)
      else
        match cur with
        | none => .exn (.keyError [])
        | some l =>
          match lookupA ot l with
          | none => .exn (.keyError [l])
          | some old => obsTypesLoopV3 rest (updateA ot l (old ++ pySplit (line.drop 6))) (some l)

/-- `struct.Struct('3x' + '14s 2x ' * (n-1) + '14s').unpack_from(line)`:
needs `3 + 16*(n-1) + 14` bytes (no padding is applied to v3 data lines)
and yields the `n` 14-character fields at offsets `3 + 16*k`.  (For `n = 0`
the Python format still contains one field; no constellation without
observable names reaches this code in the claims below.) -/
def unpackV3 (n : Nat) (line : List Char) : Py (List (List Char)) :=
  if line.length < 3 + 16 * (n - 1) + 14 then .exn .structError
  else .ok ((List.range n).map (fun k => pySlice line (3 + 16 * k) (3 + 16 * k + 14)))

/-- Decode one v3 data line into `n` observable values. -/
def decodeLineV3 (n : Nat) (line : List Char) : Py (List (Option ℚ)) := do
  let fields ← unpackV3 n line
  pure (fields.map converttofloat)

/-- One (epoch, satellite) write of `_readblocks_v3`: the data line is the
`iOrd`-th line after the epoch-start line; the field layout comes from the
per-constellation parser sizes. -/
def fillSatV3 (lines : List (List Char))
    (parserN : List (Char × Nat)) (prntoidx : List (Char × List (Int × Nat)))
    (headerstart iepoch : Nat)
    (sd : List (Char × Grid)) (iOrd : Nat) (sat : List Char) : Py (List (Char × Grid)) := do
  let datastring := lineAt lines (headerstart + 1 + iOrd)
  let c ← ofOption (pyCharAt sat 0) .indexError
  let prn ← ofOption (pyInt (sat.drop 1)) .valueError
  let n ← ofOption (lookupA parserN c) (.keyError [c])
  let data ← decodeLineV3 n datastring
  let pti ← ofOption (lookupA prntoidx c) (.keyError [c])
  let idx ← ofOption (lookupA pti prn) (.keyError [])
  let g ← ofOption (lookupA sd c) (.keyError [c])
  pure (updateA sd c (setCellRow g iepoch idx data))

/-- The `for iepoch, (headerstart, satlist) in enumerate(zip(...))` double
loop of `_readblocks_v3`. -/
def fillV3 (lines : List (List Char))
    (parserN : List (Char × Nat)) (prntoidx : List (Char × List (Int × Nat)))
    (headerlines : List Nat) (satlists : List (List (List Char)))
    (sd0 : List (Char × Grid)) : Py (List (Char × Grid)) :=
  ((headerlines.zip satlists).enum).foldlM
    (fun sd q =>
      (q.2.2.enum).foldlM
        (fun sd2 p => fillSatV3 lines parserN prntoidx q.2.1 q.1 sd2 p.1 p.2)
        sd)
    sd0

/-- `_readblocks_v3`. -/
def readblocksV3 (lines : List (List Char)) (header : HeaderMap)
    (headerlines : List Nat) (satlists : List (List (List Char)))
    (satset : List (List Char)) : Py BlocksOut := do
  let nepochs := headerlines.length
  let v ← ofOption (lookupA header sysObsLabel) (.keyError sysObsLabel)
  let obstypes ← obsTypesLoopV3 (splitlinesLC v) [] none
  let systemletters := obstypes.map Prod.fst
  let ssl0 ← appendPrns systemletters satset
  let ssl := ssl0.filter (fun p => p.2 ≠ [])
  let sorted := ssl.map (fun p => (p.1, sortInts p.2))
  let systemdata0 : List (Char × Grid) :=
    sorted.map (fun p =>
      (p.1, nanGrid nepochs p.2.length ((lookupA obstypes p.1).getD []).length))
  let prntoidx : List (Char × List (Int × Nat)) := sorted.map (fun p => (p.1, enumIdx p.2))
  let parserN : List (Char × Nat) :=
    sorted.map (fun p => (p.1, ((lookupA obstypes p.1).getD []).length))
  let filled ← fillV3 lines parserN prntoidx headerlines satlists systemdata0
  pure ⟨filled, sorted, prntoidx, obstypes⟩

/-! ## Orchestrator -/

/-- The decoded dataset returned by `processrinexfile`. -/
structure Dataset where
  systemdata : List (Char × Grid)
  systemsatlists : List (Char × List Int)
  prntoidx : List (Char × List (Int × Nat))
  obstypes : List (Char × List (List Char))
  header : HeaderMap
  obstimes : List PyDateTime
deriving DecidableEq

/-- The `try ... except KeyError as e: raise RinexError(...)` wrappers of
`processrinexfile`: only a `KeyError` raised inside the wrapped call is
converted; any other exception propagates unchanged. -/
def catchKeyErrorAsRinex {α : Type} (m : Py α) : Py α :=
  match m with
  | .exn (.keyError k) => .exn (.rinexError (("Missing required header ".toList) ++ k))
  | x => x

def v21marker : List Char := ("2.1".toList)

def v3marker : List Char := ("3.".toList)

def unsupportedMsg : List Char := ("RINEX version is not supported.".toList)

/-- `processrinexfile` (without the optional save-to-file step, which is
modelled separately by `saverinextonpz`).  Note that only the header
readers are wrapped in the `KeyError`-to-`RinexError` handler; the
`_readblocks_*` calls are not. -/
def processrinexfile (lines : List (List Char)) : Py Dataset := do
  let version ← getrinexversion lines
  if containsSub v21marker version then do
    let h ← catchKeyErrorAsRinex (readheaderV21 lines)
    let b ← readblocksV21 lines h.header h.scan.headerlines h.scan.headerlengths
      h.scan.satlists h.satset
    pure ⟨b.systemdata, b.systemsatlists, b.prntoidx, b.obstypes, h.header, h.scan.obstimes⟩
  else if containsSub v3marker version then do
    let h ← catchKeyErrorAsRinex (readheaderV3 lines)
    let b ← readblocksV3 lines h.header h.scan.headerlines h.scan.satlists h.satset
    pure ⟨b.systemdata, b.systemsatlists, b.prntoidx, b.obstypes, h.header, h.scan.obstimes⟩
  else .exn (.rinexError unsupportedMsg)

/-! ## Persistence (npz archive) -/

/-- One named entry of the compressed archive (arrays, lists and the
pickled dict/list objects are distinguished only by their content here;
"modulo array dtype/container representation" in the spec). -/
inductive NpzEntry : Type where
  | grid : Grid → NpzEntry
  | ints : List Int → NpzEntry
  | idxmap : List (Int × Nat) → NpzEntry
  | strs : List (List Char) → NpzEntry
  | hdr : HeaderMap → NpzEntry
  | times : List PyDateTime → NpzEntry
  | sys : List Char → NpzEntry
deriving DecidableEq

def systemsKey : List Char := ("systems".toList)

def sdSuffix : List Char := ("systemdata".toList)

def sslSuffix : List Char := ("systemsatlists".toList)

def ptiSuffix : List Char := ("prntoidx".toList)

def otSuffix : List Char := ("obstypes".toList)

def obstimesKey : List Char := ("obstimes".toList)

def headerKey : List Char := ("header".toList)

/-- `saverinextonpz`: build the keyword dict handed to
`np.savez_compressed` — four entries per constellation present in
`systemdata` (looked up in the other mappings, `KeyError` if absent), a
`systems` manifest, the epoch timestamps and the header mapping. -/
def saverinextonpz (d : Dataset) : Py (List (List Char × NpzEntry)) := do
  let blocks ← d.systemdata.mapM (fun p => do
    let sl ← ofOption (lookupA d.systemsatlists p.1) (.keyError [p.1])
    let pidx ← ofOption (lookupA d.prntoidx p.1) (.keyError [p.1])
    let ot ← ofOption (lookupA d.obstypes p.1) (.keyError [p.1])
    pure [(p.1 :: sdSuffix, NpzEntry.grid p.2), (p.1 :: sslSuffix, NpzEntry.ints sl),
      (p.1 :: ptiSuffix, NpzEntry.idxmap pidx), (p.1 :: otSuffix, NpzEntry.strs ot)])
  pure ((systemsKey, NpzEntry.sys (d.systemdata.map Prod.fst)) :: blocks.flatten ++
    [(obstimesKey, NpzEntry.times d.obstimes), (headerKey, NpzEntry.hdr d.header)])

/-- Archive lookup (`rawdata[key]`, `KeyError` if absent). -/
def getEntry (raw : List (List Char × NpzEntry)) (k : List Char) : Py NpzEntry :=
  ofOption (lookupA raw k) (.keyError k)

/-- One iteration of the `for systemletter in rawdata['systems']` loop of
`loadrinexfromnpz`: fetch the four per-constellation entries.  An entry of
an unexpected shape is a `.valueError` (unreachable on archives produced by
`saverinextonpz`). -/
def loadComp (raw : List (List Char × NpzEntry)) (l : Char) :
    Py ((Char × Grid) × (Char × List Int) × (Char × List (Int × Nat)) × (Char × List (List Char))) := do
  let ge ← getEntry raw (l :: sdSuffix)
  let sle ← getEntry raw (l :: sslSuffix)
  let pie ← getEntry raw (l :: ptiSuffix)
  let ote ← getEntry raw (l :: otSuffix)
  match ge, sle, pie, ote with
  | NpzEntry.grid g, NpzEntry.ints sl, NpzEntry.idxmap pidx, NpzEntry.strs ot =>
    pure ((l, g), (l, sl), (l, pidx), (l, ot))
  | _, _, _, _ => Py.exn .valueError

/-- `loadrinexfromnpz`: rebuild the per-constellation mappings from the
`systems` manifest, then the header and timestamps. -/
def loadrinexfromnpz (raw : List (List Char × NpzEntry)) : Py Dataset := do
  let se ← getEntry raw systemsKey
  match se with
  | NpzEntry.sys letters => do
    let comps ← letters.mapM (loadComp raw)
    let he ← getEntry raw headerKey
    let te ← getEntry raw obstimesKey
    match he, te with
    | NpzEntry.hdr h, NpzEntry.times t =>
      pure ⟨comps.map (fun q => q.1), comps.map (fun q => q.2.1),
        comps.map (fun q => q.2.2.1), comps.map (fun q => q.2.2.2), h, t⟩
    | _, _ => Py.exn .valueError
  | _ => Py.exn .valueError

/-! ## Concrete inputs used by the claims

File lines are written as content (with the fixed RINEX columns) followed
by the line terminator that `splitlines(True)` keeps. -/

def nl : List Char := ['\n']

/-- Pad a header-line body to 60 columns. -/
def padTo60 (s : List Char) : List Char := s ++ List.replicate (60 - s.length) ' '

/-- A header line: 60-column body, label at columns 60-80, newline. -/
def mkHdrLine (content lab : List Char) : List Char := padTo60 content ++ lab ++ nl

/-- C1 input (v3.x body): a special-event epoch line with status flag `4`
at column 31 and a declared record count of `2` at columns 33-35, two
event records, then a decodable (flag 0) epoch line. -/
def c1epochBad : List Char := ("> 2016 01 01 00 00  0.0000000  4  2".toList) ++ nl

def c1epochGood : List Char := ("> 2016 01 01 00 30  0.0000000  0  0".toList) ++ nl

def c1lines : List (List Char) :=
  [mkHdrLine [] endOfHeaderMarker, c1epochBad,
   ("EVENT RECORD ONE".toList) ++ nl, ("EVENT RECORD TWO".toList) ++ nl, c1epochGood]

/-- C2 input: a one-line file containing neither the version marker nor the
end-of-header marker. -/
def c2lines : List (List Char) := [("junk".toList) ++ nl]

/-- C3 input: a v3.x file whose header lacks `SYS / # / OBS TYPES`. -/
def c3lines : List (List Char) :=
  [mkHdrLine (("     3.11".toList)) versionMarker, mkHdrLine [] endOfHeaderMarker]

/-- C4 input: a v2.1x epoch line whose seconds field is `30.5000000`
(exactly representable in binary64, so the model matches the program). -/
def c4line : List Char := (" 16  1  1  0  0 30.5000000  0  1G05".toList)

/-- C5 counterexample input: a v3.x data line physically shorter than the
two declared 14-character observable fields (17 characters, 33 needed). -/
def c5shortLine : List Char := ("G01  23619095.450".toList)

/-- C6 input: a v3.x file declaring constellations G and R, with exactly
one epoch in which only G01 is observed, so the decoded `obstypes` carries
an entry for R but `systemdata` does not. -/
def c6file : List (List Char) :=
  [mkHdrLine (("     3.11".toList)) versionMarker,
   mkHdrLine (("G    1 C1C".toList)) sysObsLabel,
   mkHdrLine (("R    1 C1C".toList)) sysObsLabel,
   mkHdrLine [] endOfHeaderMarker,
   ("> 2016 01 01 00 00  0.0000000  0  1".toList) ++ nl,
   ("G01  23619095.450".toList) ++ nl]

/-- The decoded dataset of a file, or an empty dataset when decoding does
not return normally (the accompanying equation `processrinexfile ... = .ok
(decodeOrEmpty ...)` pins the successful case). -/
def decodeOrEmpty (lines : List (List Char)) : Dataset :=
  match processrinexfile lines with
  | .ok d => d
  | _ => ⟨[], [], [], [], [], []⟩

/-- Serialize-then-deserialize, or an empty dataset when either step does
not return normally. -/
def roundtripD (d : Dataset) : Dataset :=
  match Py.bind (saverinextonpz d) loadrinexfromnpz with
  | .ok d2 => d2
  | _ => ⟨[], [], [], [], [], []⟩

/-- Length of a Python slice. -/
theorem pySlice_length (s : List Char) (a b : Nat) :
    (pySlice s a b).length = min (b - a) (s.length - a) := by
  unfold pySlice
  rw [List.length_take, List.length_drop]

/-- C9 input: a v2.1x epoch-start line announcing 13 satellites (12 packed
on the line, the 13th on the continuation line). -/
def c9line1 : List Char :=
  (" 16  1  1  0  0  0.0000000  0 13G01G02G03G04G05G06G07G08G09G10G11G12".toList)

def c9line2 : List Char := List.replicate 32 ' ' ++ ("G13".toList)

def c9lines : List (List Char) := [c9line1, c9line2]

/-- Witness inputs for the v2.1x record-decoder claims: one epoch (header
line at index 4), two GPS satellites, two declared observables of which the
second is blank everywhere. -/
def w21header : HeaderMap := [(obsTypesLabel, ("     2    C1    L1".toList))]

def w21lines : List (List Char) :=
  [[], [], [], [], [],
   ("  23619095.450".toList), ("  23619096.111".toList)]

def w21headerlines : List Nat := [4]

def w21headerlengths : List Int := [1]

def w21satlists : List (List (List Char)) := [[("G02".toList), ("G01".toList)]]

def w21satset : List (List Char) := [("G02".toList), ("G01".toList)]

/-- A satellite set naming the same physical satellite twice, as the two
distinct identifier strings `G01` and `G 1` — both parse to PRN 1, so the
sorted per-constellation PRN list is `[1, 1]` while the `prntoidx` dict
collapses to a single key. -/
def c7satset : List (List Char) := [("G01".toList), ("G 1".toList)]

def c7satlists : List (List (List Char)) := [[("G01".toList), ("G 1".toList)]]

/-- The decoded record set for the duplicate-identifier input (the epoch
and observable data are the `w21...` ones). -/
def c7out : BlocksOut :=
  match readblocksV21 w21lines w21header w21headerlines w21headerlengths c7satlists c7satset with
  | .ok b => b
  | _ => ⟨[], [], [], []⟩

def c7grid : Grid := (lookupA c7out.systemdata 'G').getD []

def c7sl : List Int := (lookupA c7out.systemsatlists 'G').getD []

/-- Witness inputs for the v3.x record-decoder claims: one epoch (header
line at index 0), two GPS satellites observed out of PRN order. -/
def w3header : HeaderMap := [(sysObsLabel, ("G    1 C1C".toList))]

def w3lines : List (List Char) :=
  [("> 2016 01 01 00 00  0.0000000  0  2".toList),
   ("G07  23619095.450".toList), ("G01  23619096.111".toList)]

def w3headerlines : List Nat := [0]

def w3satlists : List (List (List Char)) := [[("G07".toList), ("G01".toList)]]

def w3satset : List (List Char) := [("G07".toList), ("G01".toList)]

/-! ## Basic lemmas about the embedding -/

@[simp] theorem Py.ok_bind {α β : Type} (a : α) (f : α → Py β) :
    Py.bind (Py.ok a) f = f a := rfl

@[simp] theorem Py.exn_bind {α β : Type} (e : PyErr) (f : α → Py β) :
    Py.bind (Py.exn e) f = Py.exn e := rfl

@[simp] theorem Py.stuck_bind {α β : Type} (f : α → Py β) :
    Py.bind Py.stuck f = Py.stuck := rfl

@[simp] theorem Py.bind_eq {α β : Type} (x : Py α) (f : α → Py β) :
    x >>= f = Py.bind x f := rfl

@[simp] theorem Py.pure_eq {α : Type} (a : α) : (pure a : Py α) = Py.ok a := rfl

instance : LawfulMonad Py :=
  LawfulMonad.mk' Py
    (fun x => by cases x <;> rfl)
    (fun _ _ => rfl)
    (fun x _ _ => by cases x <;> rfl)

@[simp] theorem ofOption_some {α : Type} (a : α) (e : PyErr) :
    ofOption (some a) e = Py.ok a := rfl

@[simp] theorem ofOption_none {α : Type} (e : PyErr) :
    ofOption (none : Option α) e = Py.exn e := rfl

theorem lookupA_append {α β : Type} [DecidableEq α] (xs ys : List (α × β)) (k : α) :
    lookupA (xs ++ ys) k =
      match lookupA xs k with
      | some v => some v
      | none => lookupA ys k := by
  induction xs with
  | nil => simp [lookupA]
  | cons p t ih =>
    by_cases h : p.1 = k <;> simp [lookupA, h, ih]

theorem lookupA_map_ne {α β : Type} [DecidableEq α] (m : List (α × β)) (k k' : α) (v : β)
    (h : k' ≠ k) :
    lookupA (m.map (fun p => if p.1 = k then (k, v) else p)) k' = lookupA m k' := by
  induction m with
  | nil => rfl
  | cons p t ih =>
    simp only [List.map_cons]
    by_cases hp : p.1 = k
    · rw [if_pos hp]
      simp only [lookupA]
      rw [if_neg (Ne.symm h), ih, if_neg (hp ▸ Ne.symm h)]
    · rw [if_neg hp]
      simp only [lookupA, ih]

theorem lookupA_map_self {α β : Type} [DecidableEq α] (m : List (α × β)) (k : α) (v : β)
    (h : (lookupA m k).isSome) :
    lookupA (m.map (fun p => if p.1 = k then (k, v) else p)) k = some v := by
  induction m with
  | nil => simp [lookupA] at h
  | cons p t ih =>
    simp only [List.map_cons]
    by_cases hp : p.1 = k
    · rw [if_pos hp]
      simp [lookupA]
    · rw [if_neg hp]
      simp only [lookupA] at h ⊢
      rw [if_neg hp] at h
      rw [if_neg hp]
      exact ih h

theorem lookupA_updateA {α β : Type} [DecidableEq α] (m : List (α × β)) (k k' : α) (v : β) :
    lookupA (updateA m k v) k' = if k' = k then some v else lookupA m k' := by
  unfold updateA
  split
  · rename_i hsome
    by_cases hk' : k' = k
    · subst hk'
      rw [if_pos rfl]
      exact lookupA_map_self m k' v hsome
    · rw [if_neg hk']
      exact lookupA_map_ne m k k' v hk'
  · rename_i hnone
    rw [lookupA_append]
    by_cases hk' : k' = k
    · subst hk'
      rw [if_pos rfl]
      cases hlk : lookupA m k' with
      | none => simp [lookupA]
      | some w => rw [hlk] at hnone; simp at hnone
    · rw [if_neg hk']
      cases hlk : lookupA m k' with
      | none =>
        simp only [lookupA]
        rw [if_neg (fun h : k = k' => hk' h.symm)]
      | some w => rfl

theorem lookupA_of_mem {α β : Type} [DecidableEq α] :
    (xs : List (α × β)) → (xs.map Prod.fst).Nodup → ∀ p ∈ xs, lookupA xs p.1 = some p.2
  | [], _, p, hp => absurd hp (List.not_mem_nil p)
  | q :: t, hnd, p, hp => by
    rcases List.mem_cons.mp hp with h | h
    · subst h
      simp [lookupA]
    · have hq : q.1 ≠ p.1 := by
        intro he
        have : p.1 ∈ t.map Prod.fst := List.mem_map_of_mem Prod.fst h
        rw [List.map_cons, List.nodup_cons] at hnd
        exact hnd.1 (he ▸ this)
      simp only [lookupA, if_neg hq]
      exact lookupA_of_mem t (by rw [List.map_cons, List.nodup_cons] at hnd; exact hnd.2) p h

theorem lookupA_isSome_of_mem_keys {α β : Type} [DecidableEq α] :
    (xs : List (α × β)) → ∀ k ∈ xs.map Prod.fst, (lookupA xs k).isSome
  | [], k, hk => absurd hk (List.not_mem_nil k)
  | q :: t, k, hk => by
    by_cases h : q.1 = k
    · simp [lookupA, h]
    · rcases List.mem_cons.mp hk with h2 | h2
      · exact absurd h2.symm h
      · simp only [lookupA, if_neg h]
        exact lookupA_isSome_of_mem_keys t k h2

theorem lookupA_none_of_not_mem_keys {α β : Type} [DecidableEq α] :
    (xs : List (α × β)) → ∀ k, k ∉ xs.map Prod.fst → lookupA xs k = none
  | [], _, _ => rfl
  | q :: t, k, hk => by
    have h1 : q.1 ≠ k := by
      intro he
      exact hk (by rw [List.map_cons]; exact he ▸ List.mem_cons_self _ _)
    simp only [lookupA, if_neg h1]
    exact lookupA_none_of_not_mem_keys t k
      (fun h => hk (by rw [List.map_cons]; exact List.mem_cons_of_mem _ h))

theorem pyStrip_all_space {s : List Char} (h : ∀ c ∈ s, c = ' ') : pyStrip s = [] := by
  have h1 : pyLstrip s = [] := by
    unfold pyLstrip
    rw [List.dropWhile_eq_nil_iff]
    intro a ha
    rw [h a ha]
    rfl
  unfold pyStrip
  rw [h1]
  rfl

theorem converttofloat_blank {s : List Char} (h : ∀ c ∈ s, c = ' ') :
    converttofloat s = none := by
  unfold converttofloat pyFloat
  rw [pyStrip_all_space h]
  rfl

theorem pad80_length_ge (s : List Char) : 80 ≤ (pad80 s).length := by
  unfold pad80
  rw [List.length_append, List.length_replicate]
  omega

theorem flatten_length_ge (k : Nat) :
    (l : List (List Char)) → (∀ x ∈ l, k ≤ x.length) → k * l.length ≤ l.flatten.length
  | [], _ => by simp
  | x :: t, h => by
    rw [List.flatten_cons, List.length_append, List.length_cons, Nat.mul_succ]
    have h1 := h x (List.mem_cons_self x t)
    have h2 := flatten_length_ge k t (fun y hy => h y (List.mem_cons_of_mem x hy))
    omega

theorem datastringV21_length_ge (rawLines : List (List Char)) :
    80 * rawLines.length ≤ (datastringV21 rawLines).length := by
  unfold datastringV21
  have := flatten_length_ge 80 (rawLines.map (fun l => pad80 (pyRstrip l)))
    (fun x hx => by
      obtain ⟨l, _, rfl⟩ := List.mem_map.mp hx
      exact pad80_length_ge _)
  simpa using this

theorem get?_map_range {β : Type} (f : Nat → β) (n j : Nat) (hj : j < n) :
    ((List.range n).map f)[j]? = some (f j) := by
  rw [List.getElem?_map, List.getElem?_range hj]
  rfl

theorem ne_of_length_ne {xs ys : List Char} (h : xs.length ≠ ys.length) : xs ≠ ys :=
  fun he => h (he ▸ rfl)

theorem mapM_ok {α β : Type} (f : α → Py β) (g : α → β) :
    (l : List α) → (∀ x ∈ l, f x = .ok (g x)) → l.mapM f = .ok (l.map g)
  | [], _ => rfl
  | x :: t, h => by
    rw [List.mapM_cons, h x (List.mem_cons_self x t),
      mapM_ok f g t (fun y hy => h y (List.mem_cons_of_mem x hy))]
    rfl

theorem map_keys_lookup_eq_self {β : Type} :
    (m : List (Char × β)) → ((m.map Prod.fst).Nodup) → (dflt : β) →
    (m.map Prod.fst).map (fun l => (l, (lookupA m l).getD dflt)) = m
  | [], _, _ => rfl
  | p :: t, hnd, dflt => by
    rw [List.map_cons, List.map_cons]
    have hnc := List.nodup_cons.mp (by rw [List.map_cons] at hnd; exact hnd)
    congr 1
    · have : lookupA (p :: t) p.1 = some p.2 := by
        simp [lookupA]
      rw [this]
      rfl
    · have hstep : ∀ l ∈ t.map Prod.fst,
          (l, (lookupA (p :: t) l).getD dflt) = (l, (lookupA t l).getD dflt) := by
        intro l hl
        have hne : p.1 ≠ l := fun he => hnc.1 (he ▸ hl)
        rw [lookupA, if_neg hne]
      rw [List.map_congr_left hstep]
      exact map_keys_lookup_eq_self t hnc.2 dflt

theorem lookupA_map_value {α β γ : Type} [DecidableEq α] (g : β → γ) :
    (m : List (α × β)) → (k : α) →
    lookupA (m.map (fun p => (p.1, g p.2))) k = (lookupA m k).map g
  | [], _ => rfl
  | p :: t, k => by
    by_cases hp : p.1 = k
    · simp [lookupA, hp]
    · simp only [List.map_cons, lookupA, if_neg hp]
      exact lookupA_map_value g t k

theorem enumIdx_keys (xs : List Int) : (enumIdx xs).map Prod.fst = xs := by
  unfold enumIdx
  rw [List.map_map]
  exact List.enumFrom_map_snd 0 xs

theorem lookupA_enumIdx (xs : List Int) (hnd : xs.Nodup) (i : Nat) (hi : i < xs.length) :
    lookupA (enumIdx xs) xs[i] = some i := by
  have hlen : i < (xs.enumFrom 0).length := by rw [List.enumFrom_length]; exact hi
  have hmem : (xs[i], i) ∈ enumIdx xs := by
    unfold enumIdx
    apply List.mem_map.mpr
    refine ⟨(i, xs[i]), ?_, rfl⟩
    have hg := List.getElem_enumFrom xs 0 i hlen
    rw [Nat.zero_add] at hg
    rw [← hg]
    exact List.getElem_mem hlen
  have hkeys : ((enumIdx xs).map Prod.fst).Nodup := by rw [enumIdx_keys]; exact hnd
  exact lookupA_of_mem (enumIdx xs) hkeys (xs[i], i) hmem

theorem updateA_keys_of_isSome {α β : Type} [DecidableEq α] (m : List (α × β)) (k : α) (v : β)
    (h : (lookupA m k).isSome) : (updateA m k v).map Prod.fst = m.map Prod.fst := by
  unfold updateA
  rw [if_pos h, List.map_map]
  apply List.map_congr_left
  intro p _
  by_cases hp : p.1 = k
  · simp [Function.comp, hp]
  · simp [Function.comp, hp]

theorem appendStep_ok {m m2 : List (Char × List Int)} {sat : List Char}
    (h : appendStep m sat = .ok m2) :
    ∃ c prn cur, pyCharAt sat 0 = some c ∧ pyInt (sat.drop 1) = some prn ∧
      lookupA m c = some cur ∧ m2 = updateA m c (cur ++ [prn]) := by
  unfold appendStep at h
  cases hc : pyCharAt sat 0 with
  | none =>
    rw [hc] at h
    exact Py.noConfusion h
  | some c =>
    rw [hc] at h
    simp only [ofOption_some, Py.bind_eq, Py.ok_bind] at h
    cases hp : pyInt (sat.drop 1) with
    | none =>
      rw [hp] at h
      exact Py.noConfusion h
    | some prn =>
      rw [hp] at h
      simp only [ofOption_some, Py.ok_bind] at h
      cases hcur : lookupA m c with
      | none =>
        rw [hcur] at h
        exact Py.noConfusion h
      | some cur =>
        rw [hcur] at h
        simp only [ofOption_some, Py.ok_bind, Py.pure_eq] at h
        refine ⟨c, prn, cur, rfl, rfl, hcur, ?_⟩
        exact ((Py.ok.injEq _ _).mp h).symm

theorem foldl_appendStep :
    (satset : List (List Char)) → (m ssl : List (Char × List Int)) →
    satset.foldlM appendStep m = .ok ssl →
    (ssl.map Prod.fst = m.map Prod.fst ∧
      ∀ l, lookupA ssl l = (lookupA m l).map (fun cur => cur ++ prnsFor satset l))
  | [], m, ssl, h => by
    have hm : ssl = m := by
      rw [List.foldlM_nil] at h
      exact (Py.ok.injEq _ _ ▸ h).symm
    subst hm
    refine ⟨rfl, fun l => ?_⟩
    cases lookupA ssl l <;> simp [prnsFor]
  | s :: t, m, ssl, h => by
    rw [List.foldlM_cons] at h
    cases happ : appendStep m s with
    | exn e =>
      rw [happ] at h
      exact Py.noConfusion h
    | stuck =>
      rw [happ] at h
      exact Py.noConfusion h
    | ok m2 =>
      rw [happ] at h
      have hrec := foldl_appendStep t m2 ssl h
      obtain ⟨c, prn, cur, hc, hp, hcur, hm2⟩ := appendStep_ok happ
      subst hm2
      constructor
      · rw [hrec.1, updateA_keys_of_isSome m c (cur ++ [prn]) (by rw [hcur]; rfl)]
      · intro l
        rw [hrec.2 l, lookupA_updateA]
        have hp2 : pyInt s.tail = some prn := by
          rw [← List.drop_one]
          exact hp
        have hfun : prnsFor (s :: t) l =
            (if c = l then prn :: prnsFor t l else prnsFor t l) := by
          by_cases hcl : c = l
          · rw [if_pos hcl]
            subst hcl
            simp [prnsFor, List.filterMap_cons, hc, hp, hp2]
          · rw [if_neg hcl]
            simp [prnsFor, List.filterMap_cons, hc, hp, hp2, hcl]
        rw [hfun]
        by_cases hcl : l = c
        · subst hcl
          rw [if_pos rfl, if_pos rfl, hcur]
          simp
        · rw [if_neg hcl, if_neg (fun he => hcl he.symm)]

theorem lookupA_init_letters (l : Char) :
    (letters : List Char) →
    lookupA (letters.map (fun x => (x, ([] : List Int)))) l =
      if l ∈ letters then some [] else none
  | [] => by simp [lookupA]
  | a :: t => by
    by_cases ha : a = l
    · subst ha
      simp [lookupA]
    · simp only [List.map_cons, lookupA, if_neg ha, lookupA_init_letters l t]
      by_cases hlt : l ∈ t
      · rw [if_pos hlt, if_pos (List.mem_cons_of_mem a hlt)]
      · rw [if_neg hlt, if_neg (fun hm => by
          rcases List.mem_cons.mp hm with he | hmt
          · exact ha he.symm
          · exact hlt hmt)]

theorem appendPrns_ok (letters : List Char) (satset : List (List Char))
    (ssl : List (Char × List Int)) (h : appendPrns letters satset = .ok ssl) :
    ssl.map Prod.fst = letters ∧
      ∀ l, lookupA ssl l = if l ∈ letters then some (prnsFor satset l) else none := by
  have hinit : (letters.map (fun x => (x, ([] : List Int)))).map Prod.fst = letters := by
    rw [List.map_map]
    exact List.map_id letters
  obtain ⟨hkeys, hlook⟩ := foldl_appendStep satset _ ssl h
  refine ⟨by rw [hkeys, hinit], fun l => ?_⟩
  rw [hlook l, lookupA_init_letters l letters]
  by_cases hl : l ∈ letters
  · rw [if_pos hl, if_pos hl]
    simp
  · rw [if_neg hl, if_neg hl]
    rfl

theorem mem_prnsFor (satset : List (List Char)) (l : Char) (p : Int) :
    p ∈ prnsFor satset l ↔
      ∃ s ∈ satset, pyCharAt s 0 = some l ∧ pyInt (s.drop 1) = some p := by
  unfold prnsFor
  rw [List.mem_filterMap]
  constructor
  · rintro ⟨s, hs, hf⟩
    refine ⟨s, hs, ?_⟩
    cases hc : pyCharAt s 0 with
    | none => rw [hc] at hf; exact Option.noConfusion hf
    | some c =>
      rw [hc] at hf
      cases hp : pyInt (s.drop 1) with
      | none => rw [hp] at hf; exact Option.noConfusion hf
      | some q =>
        rw [hp] at hf
        have hf2 : (if c = l then some q else none) = some p := hf
        by_cases hcl : c = l
        · subst hcl
          rw [if_pos rfl] at hf2
          exact ⟨rfl, hf2⟩
        · rw [if_neg hcl] at hf2
          exact Option.noConfusion hf2
  · rintro ⟨s, hs, hc, hp⟩
    refine ⟨s, hs, ?_⟩
    rw [hc, hp]
    show (if l = l then some p else none) = some p
    rw [if_pos rfl]

theorem nodup_filterMap_on {α β : Type} (f : α → Option β) :
    (l : List α) → l.Nodup →
    (∀ a ∈ l, ∀ b ∈ l, ∀ c, c ∈ f a → c ∈ f b → a = b) →
    (l.filterMap f).Nodup
  | [], _, _ => List.nodup_nil
  | a :: t, hnd, hinj => by
    have hnc := List.nodup_cons.mp hnd
    have hrec := nodup_filterMap_on f t hnc.2
      (fun x hx y hy => hinj x (List.mem_cons_of_mem a hx) y (List.mem_cons_of_mem a hy))
    rw [List.filterMap_cons]
    cases hfa : f a with
    | none => exact hrec
    | some c =>
      rw [List.nodup_cons]
      refine ⟨fun hcmem => ?_, hrec⟩
      obtain ⟨b, hb, hfb⟩ := List.mem_filterMap.mp hcmem
      have : a = b := hinj a (List.mem_cons_self a t) b (List.mem_cons_of_mem a hb) c
        (by rw [hfa]; exact Option.mem_some_iff.mpr rfl) hfb
      exact hnc.1 (this ▸ hb)

theorem Py.bind_ok_elim {α β : Type} {m : Py α} {f : α → Py β} {b : β}
    (h : Py.bind m f = .ok b) : ∃ a, m = .ok a ∧ f a = .ok b := by
  cases m with
  | ok a => exact ⟨a, rfl, h⟩
  | exn e => exact Py.noConfusion h
  | stuck => exact Py.noConfusion h

theorem ofOption_ok_elim {α : Type} {o : Option α} {e : PyErr} {a : α}
    (h : ofOption o e = .ok a) : o = some a := by
  cases o with
  | some x => exact congrArg some ((Py.ok.injEq _ _).mp h)
  | none => exact Py.noConfusion h

theorem updateA_keys_nodup {α β : Type} [DecidableEq α] (m : List (α × β)) (k : α) (v : β)
    (h : (m.map Prod.fst).Nodup) : ((updateA m k v).map Prod.fst).Nodup := by
  by_cases hk : (lookupA m k).isSome
  · rw [updateA_keys_of_isSome m k v hk]
    exact h
  · unfold updateA
    rw [if_neg hk, List.map_append]
    rw [List.nodup_append]
    refine ⟨h, by simp, ?_⟩
    intro x hx
    simp only [List.map_cons, List.map_nil, List.mem_cons, List.not_mem_nil, or_false]
    intro he
    subst he
    exact hk (lookupA_isSome_of_mem_keys m x hx)

theorem lookupA_filter {α β : Type} [DecidableEq α] (pred : α × β → Bool) :
    (m : List (α × β)) → ((m.map Prod.fst).Nodup) → (k : α) →
    lookupA (m.filter pred) k = (lookupA m k).bind (fun v => if pred (k, v) then some v else none)
  | [], _, _ => rfl
  | p :: t, hnd, k => by
    have hnc := List.nodup_cons.mp (by rw [List.map_cons] at hnd; exact hnd)
    by_cases hp : p.1 = k
    · have hpk : p = (k, p.2) := by rw [← hp]
      have hnotk : lookupA (t.filter pred) k = none := by
        apply lookupA_none_of_not_mem_keys
        intro hmem
        obtain ⟨q, hq, hql⟩ := List.mem_map.mp hmem
        exact hnc.1 (hp ▸ hql ▸ List.mem_map_of_mem Prod.fst (List.mem_of_mem_filter hq))
      rw [List.filter_cons]
      by_cases hpred : pred p
      · rw [if_pos hpred]
        simp only [lookupA, if_pos hp, Option.bind]
        rw [hpk] at hpred
        rw [if_pos hpred]
      · rw [if_neg hpred]
        simp only [lookupA, if_pos hp, Option.bind]
        rw [hpk] at hpred
        rw [if_neg hpred, hnotk]
    · rw [List.filter_cons]
      have htail := lookupA_filter pred t hnc.2 k
      by_cases hpred : pred p
      · rw [if_pos hpred]
        simp only [lookupA, if_neg hp]
        exact htail
      · rw [if_neg hpred]
        simp only [lookupA, if_neg hp]
        exact htail

theorem obsTypesLoopV3_nil (ot : List (Char × List (List Char))) (cur : Option Char) :
    obsTypesLoopV3 [] ot cur = .ok ot := rfl

theorem obsTypesLoopV3_cons (line : List Char) (rest : List (List Char))
    (ot : List (Char × List (List Char))) (cur : Option Char) :
    obsTypesLoopV3 (line :: rest) ot cur =
      (match pyCharAt line 0 with
       | none => .exn .indexError
       | some c0 =>
         if c0 ≠ ' ' then obsTypesLoopV3 rest (updateA ot c0 (pySplit (line.drop 6))) (some c0)
         else
           match cur with
           | none => .exn (.keyError [])
           | some l =>
             match lookupA ot l with
             | none => .exn (.keyError [l])
             | some old =>
               obsTypesLoopV3 rest (updateA ot l (old ++ pySplit (line.drop 6))) (some l)) := rfl

theorem obsTypesLoopV3_step_none (line : List Char) (rest : List (List Char))
    (ot : List (Char × List (List Char))) (cur : Option Char)
    (hc : pyCharAt line 0 = none) :
    obsTypesLoopV3 (line :: rest) ot cur = .exn .indexError := by
  rw [obsTypesLoopV3_cons, hc]

theorem obsTypesLoopV3_step_new (line : List Char) (rest : List (List Char))
    (ot : List (Char × List (List Char))) (cur : Option Char) (c0 : Char)
    (hc : pyCharAt line 0 = some c0) (hsp : c0 ≠ ' ') :
    obsTypesLoopV3 (line :: rest) ot cur =
      obsTypesLoopV3 rest (updateA ot c0 (pySplit (line.drop 6))) (some c0) := by
  rw [obsTypesLoopV3_cons, hc]
  show (if c0 ≠ ' ' then _ else _) = _
  rw [if_pos hsp]

theorem obsTypesLoopV3_step_contNone (line : List Char) (rest : List (List Char))
    (ot : List (Char × List (List Char))) (c0 : Char)
    (hc : pyCharAt line 0 = some c0) (hsp : ¬c0 ≠ ' ') :
    obsTypesLoopV3 (line :: rest) ot none = .exn (.keyError []) := by
  rw [obsTypesLoopV3_cons, hc]
  show (if c0 ≠ ' ' then _ else _) = _
  rw [if_neg hsp]

theorem obsTypesLoopV3_step_contMissing (line : List Char) (rest : List (List Char))
    (ot : List (Char × List (List Char))) (c0 l : Char)
    (hc : pyCharAt line 0 = some c0) (hsp : ¬c0 ≠ ' ')
    (hold : lookupA ot l = none) :
    obsTypesLoopV3 (line :: rest) ot (some l) = .exn (.keyError [l]) := by
  rw [obsTypesLoopV3_cons, hc]
  show (if c0 ≠ ' ' then _ else _) = _
  rw [if_neg hsp]
  show (match lookupA ot l with
    | none => Py.exn (PyErr.keyError [l])
    | some old => obsTypesLoopV3 rest (updateA ot l (old ++ pySplit (line.drop 6))) (some l)) = _
  rw [hold]

theorem obsTypesLoopV3_step_cont (line : List Char) (rest : List (List Char))
    (ot : List (Char × List (List Char))) (c0 l : Char) (old : List (List Char))
    (hc : pyCharAt line 0 = some c0) (hsp : ¬c0 ≠ ' ')
    (hold : lookupA ot l = some old) :
    obsTypesLoopV3 (line :: rest) ot (some l) =
      obsTypesLoopV3 rest (updateA ot l (old ++ pySplit (line.drop 6))) (some l) := by
  rw [obsTypesLoopV3_cons, hc]
  show (if c0 ≠ ' ' then _ else _) = _
  rw [if_neg hsp]
  show (match lookupA ot l with
    | none => Py.exn (PyErr.keyError [l])
    | some old => obsTypesLoopV3 rest (updateA ot l (old ++ pySplit (line.drop 6))) (some l)) = _
  rw [hold]

theorem obsTypesLoopV3_keys_nodup :
    (ls : List (List Char)) → (ot0 : List (Char × List (List Char))) → (cur : Option Char) →
    (ot : List (Char × List (List Char))) →
    obsTypesLoopV3 ls ot0 cur = .ok ot → (ot0.map Prod.fst).Nodup → (ot.map Prod.fst).Nodup
  | [], ot0, cur, ot, h, hnd => by
    rw [obsTypesLoopV3_nil] at h
    rw [← (Py.ok.injEq _ _).mp h]
    exact hnd
  | line :: rest, ot0, cur, ot, h, hnd => by
    cases hc : pyCharAt line 0 with
    | none =>
      rw [obsTypesLoopV3_step_none line rest ot0 cur hc] at h
      exact Py.noConfusion h
    | some c0 =>
      by_cases hsp : c0 ≠ ' '
      · rw [obsTypesLoopV3_step_new line rest ot0 cur c0 hc hsp] at h
        exact obsTypesLoopV3_keys_nodup rest _ _ ot h (updateA_keys_nodup ot0 c0 _ hnd)
      · cases cur with
        | none =>
          rw [obsTypesLoopV3_step_contNone line rest ot0 c0 hc hsp] at h
          exact Py.noConfusion h
        | some l =>
          cases hold : lookupA ot0 l with
          | none =>
            rw [obsTypesLoopV3_step_contMissing line rest ot0 c0 l hc hsp hold] at h
            exact Py.noConfusion h
          | some old =>
            rw [obsTypesLoopV3_step_cont line rest ot0 c0 l old hc hsp hold] at h
            exact obsTypesLoopV3_keys_nodup rest _ _ ot h (updateA_keys_nodup ot0 l _ hnd)

theorem readblocksV21_ok_elim (lines : List (List Char)) (header : HeaderMap)
    (headerlines : List Nat) (headerlengths : List Int)
    (satlists : List (List (List Char))) (satset : List (List Char))
    (out : BlocksOut)
    (hok : readblocksV21 lines header headerlines headerlengths satlists satset = .ok out) :
    ∃ v ssl,
      lookupA header obsTypesLabel = some v ∧
      appendPrns (lettersOf satset) satset = .ok ssl ∧
      out.systemsatlists = ssl.map (fun p => (p.1, sortInts p.2)) ∧
      out.prntoidx = (ssl.map (fun p => (p.1, sortInts p.2))).map (fun p => (p.1, enumIdx p.2)) := by
  unfold readblocksV21 at hok
  obtain ⟨v, hv0, hok⟩ := Py.bind_ok_elim hok
  obtain ⟨ssl, happ, hok⟩ := Py.bind_ok_elim hok
  obtain ⟨filled, hfill, hout⟩ := Py.bind_ok_elim hok
  have hco := (Py.ok.injEq _ _).mp hout
  refine ⟨v, ssl, ofOption_ok_elim hv0, happ, ?_, ?_⟩
  · rw [← hco]
  · rw [← hco]

theorem readblocksV3_ok_elim (lines : List (List Char)) (header : HeaderMap)
    (headerlines : List Nat) (satlists : List (List (List Char)))
    (satset : List (List Char)) (out : BlocksOut)
    (hok : readblocksV3 lines header headerlines satlists satset = .ok out) :
    ∃ v ot ssl0,
      lookupA header sysObsLabel = some v ∧
      obsTypesLoopV3 (splitlinesLC v) [] none = .ok ot ∧
      appendPrns (ot.map Prod.fst) satset = .ok ssl0 ∧
      out.systemsatlists = (ssl0.filter (fun p => p.2 ≠ [])).map (fun p => (p.1, sortInts p.2)) ∧
      out.prntoidx = ((ssl0.filter (fun p => p.2 ≠ [])).map
        (fun p => (p.1, sortInts p.2))).map (fun p => (p.1, enumIdx p.2)) ∧
      out.obstypes = ot := by
  unfold readblocksV3 at hok
  obtain ⟨v, hv0, hok⟩ := Py.bind_ok_elim hok
  obtain ⟨ot, hot, hok⟩ := Py.bind_ok_elim hok
  obtain ⟨ssl0, happ, hok⟩ := Py.bind_ok_elim hok
  obtain ⟨filled, hfill, hout⟩ := Py.bind_ok_elim hok
  have hco := (Py.ok.injEq _ _).mp hout
  refine ⟨v, ot, ssl0, ofOption_ok_elim hv0, hot, happ, ?_, ?_, ?_⟩
  · rw [← hco]
  · rw [← hco]
  · rw [← hco]

theorem collectSatsV21_thirteen (lines : List (List Char)) (i : Nat) :
    collectSatsV21 lines i 13 =
      (List.range 12).map (fun s => satSliceV21 (lineAt lines i) s) ++
        [satSliceV21 (lineAt lines (i + 1)) 0] := by
  unfold collectSatsV21
  rw [if_pos (by omega : (13 : Nat) > 12)]
  rw [show (13 : Nat) = 12 + 1 from rfl, List.range_succ, List.map_append]
  have h2 : List.map (fun s => satSliceV21 (lineAt lines (i + s / 12)) (s % 12)) [12] =
      [satSliceV21 (lineAt lines (i + 1)) 0] := rfl
  have h1 : List.map (fun s => satSliceV21 (lineAt lines (i + s / 12)) (s % 12)) (List.range 12) =
      List.map (fun s => satSliceV21 (lineAt lines i) s) (List.range 12) :=
    List.map_congr_left (fun s hs => by
      rw [Nat.div_eq_of_lt (List.mem_range.mp hs), Nat.mod_eq_of_lt (List.mem_range.mp hs),
        Nat.add_zero])
  rw [h1, h2]

theorem lookupA_map_keyed {α β γ : Type} [DecidableEq α] (h : α → β → γ) :
    (m : List (α × β)) → (k : α) →
    lookupA (m.map (fun p => (p.1, h p.1 p.2))) k = (lookupA m k).map (h k)
  | [], _ => rfl
  | p :: t, k => by
    by_cases hp : p.1 = k
    · subst hp
      simp [lookupA]
    · simp only [List.map_cons, lookupA, if_neg hp]
      exact lookupA_map_keyed h t k

theorem mem_keys_of_lookupA_some {α β : Type} [DecidableEq α] :
    (m : List (α × β)) → {k : α} → {v : β} → lookupA m k = some v → k ∈ m.map Prod.fst
  | [], _, _, h => Option.noConfusion h
  | p :: t, k, v, h => by
    by_cases hp : p.1 = k
    · rw [List.map_cons]
      exact hp ▸ List.mem_cons_self _ _
    · rw [lookupA, if_neg hp] at h
      rw [List.map_cons]
      exact List.mem_cons_of_mem _ (mem_keys_of_lookupA_some t h)

theorem lookupA_const_map {β : Type} (x : β) (l : Char) :
    (letters : List Char) →
    lookupA (letters.map (fun c => (c, x))) l = if l ∈ letters then some x else none
  | [] => by simp [lookupA]
  | a :: t => by
    by_cases ha : a = l
    · subst ha
      simp [lookupA]
    · simp only [List.map_cons, lookupA, if_neg ha, lookupA_const_map x l t]
      by_cases hlt : l ∈ t
      · rw [if_pos hlt, if_pos (List.mem_cons_of_mem a hlt)]
      · rw [if_neg hlt, if_neg (fun hm => by
          rcases List.mem_cons.mp hm with he | hmt
          · exact ha he.symm
          · exact hlt hmt)]

theorem enumIdx_length (xs : List Int) : (enumIdx xs).length = xs.length := by
  unfold enumIdx
  rw [List.length_map, List.enum_length]

/-- Shape of a dense array: `ne` epochs, `ns` satellite rows, `no`
observable columns. -/
def GridShape (g : Grid) (ne ns no : Nat) : Prop :=
  g.length = ne ∧ (∀ ep ∈ g, ep.length = ns) ∧ (∀ ep ∈ g, ∀ row ∈ ep, row.length = no)

theorem nanGrid_shape (ne ns no : Nat) : GridShape (nanGrid ne ns no) ne ns no := by
  refine ⟨List.length_replicate _ _, fun ep hep => ?_, fun ep hep row hrow => ?_⟩
  · rw [List.eq_of_mem_replicate hep, List.length_replicate]
  · rw [List.eq_of_mem_replicate hep] at hrow
    rw [List.eq_of_mem_replicate hrow, List.length_replicate]

theorem setCellRow_shape {g : Grid} {ne ns no : Nat} {e s : Nat} {row : List (Option ℚ)}
    (h : GridShape g ne ns no) (hrow : row.length = no) :
    GridShape (setCellRow g e s row) ne ns no := by
  obtain ⟨h1, h2, h3⟩ := h
  by_cases he : e < g.length
  · have hepmem : g.getD e [] ∈ g := by
      rw [List.getD_eq_getElem?_getD, List.getElem?_eq_getElem he]
      exact List.getElem_mem he
    refine ⟨by rw [setCellRow, List.length_set]; exact h1, ?_, ?_⟩
    · intro ep hep
      rcases List.mem_or_eq_of_mem_set hep with hmem | heq
      · exact h2 ep hmem
      · subst heq
        rw [List.length_set]
        exact h2 _ hepmem
    · intro ep hep rw2 hrow2
      rcases List.mem_or_eq_of_mem_set hep with hmem | heq
      · exact h3 ep hmem rw2 hrow2
      · subst heq
        rcases List.mem_or_eq_of_mem_set hrow2 with hmem2 | heq2
        · exact h3 _ hepmem rw2 hmem2
        · subst heq2
          exact hrow
  · rw [setCellRow, List.set_eq_of_length_le (Nat.le_of_not_lt he)]
    exact ⟨h1, h2, h3⟩

theorem decodeSatV21_ok_len {n : Nat} {raw : List (List Char)} {data : List (Option ℚ)}
    (h : decodeSatV21 n raw = .ok data) : data.length = n := by
  unfold decodeSatV21 at h
  obtain ⟨fields, hf, hp⟩ := Py.bind_ok_elim h
  unfold unpackV21 at hf
  by_cases hlen : (datastringV21 raw).length < 16 * n
  · rw [if_pos hlen] at hf
    exact Py.noConfusion hf
  · rw [if_neg hlen] at hf
    have hfields := (Py.ok.injEq _ _).mp hf
    have hdata := (Py.ok.injEq _ _).mp hp
    rw [← hdata, ← hfields, List.length_map, List.length_map, List.length_range]

theorem fillSatV21_ok_elim {lines : List (List Char)} {nobstypes rowpersat : Nat}
    {prntoidx : List (Char × List (Int × Nat))} {headerstart : Nat} {headerlength : Int}
    {iepoch : Nat} {sd : List (Char × Grid)} {iOrd : Nat} {sat : List Char}
    {sd2 : List (Char × Grid)}
    (h : fillSatV21 lines nobstypes rowpersat prntoidx headerstart headerlength iepoch
      sd iOrd sat = .ok sd2) :
    ∃ data c g idx,
      decodeSatV21 nobstypes
        (satLinesV21 lines headerstart headerlength.toNat rowpersat iOrd) = .ok data ∧
      lookupA sd c = some g ∧
      sd2 = updateA sd c (setCellRow g iepoch idx data) := by
  unfold fillSatV21 at h
  by_cases hneg : headerlength < 0
  · rw [if_pos hneg] at h
    exact Py.noConfusion h
  · rw [if_neg hneg] at h
    obtain ⟨data, hdata, h⟩ := Py.bind_ok_elim h
    obtain ⟨c, hc, h⟩ := Py.bind_ok_elim h
    obtain ⟨prn, hprn, h⟩ := Py.bind_ok_elim h
    obtain ⟨pti, hpti, h⟩ := Py.bind_ok_elim h
    obtain ⟨idx, hidx, h⟩ := Py.bind_ok_elim h
    obtain ⟨g, hg, h⟩ := Py.bind_ok_elim h
    exact ⟨data, c, g, idx, hdata, ofOption_ok_elim hg, ((Py.ok.injEq _ _).mp h).symm⟩

theorem foldlM_ok_inv {α σ : Type} (Inv : σ → Prop) (step : σ → α → Py σ)
    (hstep : ∀ sd x sd2, Inv sd → step sd x = .ok sd2 → Inv sd2) :
    (l : List α) → ∀ sd sd2, Inv sd → l.foldlM step sd = .ok sd2 → Inv sd2
  | [], sd, sd2, hinv, h => by
    rw [List.foldlM_nil] at h
    rw [← (Py.ok.injEq _ _).mp h]
    exact hinv
  | x :: t, sd, sd2, hinv, h => by
    rw [List.foldlM_cons] at h
    obtain ⟨m2, hm2, hrest⟩ := Py.bind_ok_elim h
    exact foldlM_ok_inv Inv step hstep t m2 sd2 (hstep sd x m2 hinv hm2) hrest

/-- The joint invariant the v2.1x fill loop preserves: the key list is
unchanged and every grid keeps its shape. -/
def FillInv (ne no : Nat) (nsF : Char → Nat) (keys : List Char) (sd : List (Char × Grid)) :
    Prop :=
  sd.map Prod.fst = keys ∧ ∀ l g, lookupA sd l = some g → GridShape g ne (nsF l) no

theorem fillSatV21_preserves {lines : List (List Char)} {nobstypes rowpersat : Nat}
    {prntoidx : List (Char × List (Int × Nat))} {headerstart : Nat} {headerlength : Int}
    {iepoch : Nat} {iOrd : Nat} {sat : List Char} {ne : Nat} {nsF : Char → Nat}
    {keys : List Char} (sd sd2 : List (Char × Grid))
    (hinv : FillInv ne nobstypes nsF keys sd)
    (h : fillSatV21 lines nobstypes rowpersat prntoidx headerstart headerlength iepoch
      sd iOrd sat = .ok sd2) :
    FillInv ne nobstypes nsF keys sd2 := by
  obtain ⟨data, c, g, idx, hdata, hg, hsd2⟩ := fillSatV21_ok_elim h
  subst hsd2
  have hdlen : data.length = nobstypes := decodeSatV21_ok_len hdata
  constructor
  · rw [updateA_keys_of_isSome sd c _ (by rw [hg]; rfl)]
    exact hinv.1
  · intro l g2 hg2
    rw [lookupA_updateA] at hg2
    by_cases hl : l = c
    · rw [if_pos hl] at hg2
      have hge : g2 = setCellRow g iepoch idx data := (Option.some.injEq _ _ ▸ hg2).symm
      subst hge
      subst hl
      exact setCellRow_shape (hinv.2 l g hg) hdlen
    · rw [if_neg hl] at hg2
      exact hinv.2 l g2 hg2

theorem fillV21_preserves {lines : List (List Char)} {nobstypes rowpersat : Nat}
    {headerlines : List Nat} {headerlengths : List Int}
    {satlists : List (List (List Char))} {prntoidx : List (Char × List (Int × Nat))}
    {ne : Nat} {nsF : Char → Nat} {keys : List Char}
    (sd0 filled : List (Char × Grid))
    (hinv : FillInv ne nobstypes nsF keys sd0)
    (h : fillV21 lines nobstypes rowpersat headerlines headerlengths satlists prntoidx sd0 =
      .ok filled) :
    FillInv ne nobstypes nsF keys filled := by
  unfold fillV21 at h
  refine foldlM_ok_inv (FillInv ne nobstypes nsF keys) _ ?_ _ sd0 filled hinv h
  intro sd x sd2 hsd hstep
  refine foldlM_ok_inv (FillInv ne nobstypes nsF keys) _ ?_ _ sd sd2 hsd hstep
  intro sd3 y sd4 hsd3 hstep2
  exact fillSatV21_preserves sd3 sd4 hsd3 hstep2

theorem mem_keptObservables (g : Grid) (nobs j : Nat) :
    j ∈ keptObservables g nobs ↔
      j < nobs ∧ ∃ ep ∈ g, ∃ row ∈ ep, (row.getD j none).isSome := by
  unfold keptObservables
  rw [List.mem_filter, List.mem_range]
  unfold colHasValueB
  rw [List.any_eq_true]
  constructor
  · rintro ⟨hj, ep, hep, hin⟩
    rw [List.any_eq_true] at hin
    obtain ⟨row, hrow, hv⟩ := hin
    exact ⟨hj, ep, hep, row, hrow, hv⟩
  · rintro ⟨hj, ep, hep, row, hrow, hv⟩
    refine ⟨hj, ep, hep, ?_⟩
    rw [List.any_eq_true]
    exact ⟨row, hrow, hv⟩

theorem keptObservables_pairwise (g : Grid) (nobs : Nat) :
    List.Pairwise (· < ·) (keptObservables g nobs) :=
  (List.pairwise_lt_range nobs).sublist (List.filter_sublist _)

theorem readblocksV21_ok_elim_full (lines : List (List Char)) (header : HeaderMap)
    (headerlines : List Nat) (headerlengths : List Int)
    (satlists : List (List (List Char))) (satset : List (List Char))
    (out : BlocksOut)
    (hok : readblocksV21 lines header headerlines headerlengths satlists satset = .ok out) :
    ∃ v ssl filled,
      lookupA header obsTypesLabel = some v ∧
      appendPrns (lettersOf satset) satset = .ok ssl ∧
      fillV21 lines (pySplit (v.drop 6)).length (1 + (pySplit (v.drop 6)).length / 5)
        headerlines headerlengths satlists
        ((ssl.map (fun p => (p.1, sortInts p.2))).map (fun p => (p.1, enumIdx p.2)))
        ((ssl.map (fun p => (p.1, sortInts p.2))).map
          (fun p => (p.1, nanGrid headerlines.length p.2.length (pySplit (v.drop 6)).length))) =
        .ok filled ∧
      out = ⟨(pruneV21 filled ((lettersOf satset).map (fun l => (l, pySplit (v.drop 6))))
          (pySplit (v.drop 6)).length).1,
        ssl.map (fun p => (p.1, sortInts p.2)),
        (ssl.map (fun p => (p.1, sortInts p.2))).map (fun p => (p.1, enumIdx p.2)),
        (pruneV21 filled ((lettersOf satset).map (fun l => (l, pySplit (v.drop 6))))
          (pySplit (v.drop 6)).length).2⟩ := by
  unfold readblocksV21 at hok
  obtain ⟨v, hv0, hok⟩ := Py.bind_ok_elim hok
  obtain ⟨ssl, happ, hok⟩ := Py.bind_ok_elim hok
  obtain ⟨filled, hfill, hout⟩ := Py.bind_ok_elim hok
  exact ⟨v, ssl, filled, ofOption_ok_elim hv0, happ, hfill,
    ((Py.ok.injEq _ _).mp hout).symm⟩

/-! ## Claim theorems -/

/-- C1.  A v3.x epoch-start line with status flag `4` (not decodable) and a
declared skip-count of `2` records: the scanner is supposed to advance past
exactly the declared count (2 + 1 lines, landing on the decodable epoch at
index 4 of `c1lines`), but `skip = int(lines[i][30:32])` reads columns
30-32, which contain the flag itself (`" 4"`), so it advances 4 + 1 lines
and the following decodable epoch is never scanned: the result holds no
epoch record at all.  The conjuncts record the skip field read by the code
(4 = the flag), the declared count field (2), and that line 4 is a
decodable (`flag 0`) epoch-start line that claim-conformant scanning would
have recorded. -/
theorem claim_c1_v3_skip_count :
    readheaderV3 c1lines = .ok ⟨[], ⟨[], [], []⟩, []⟩ ∧
    pyCharAt c1epochBad 31 = some '4' ∧
    pyInt (pySlice c1epochBad 30 32) = some 4 ∧
    pyInt (pySlice c1epochBad 33 35) = some 2 ∧
    lineAt c1lines 4 = c1epochGood ∧
    pyCharAt c1epochGood 0 = some '>' ∧
    pyCharAt c1epochGood 31 = some '0' := by
  decide

/-- C2.  `getrinexversion` on a file that contains neither the version
marker nor the end-of-header marker: at end of input `f.readline()` returns
the empty string forever, the empty string contains neither marker, and the
`while` loop never exits.  The claimed missing-version error is never
raised; the function does not terminate (`.stuck`). -/
theorem claim_c2_version_sniff : getrinexversion c2lines = Py.stuck := by
  decide

/-- C3.  A v3.x file whose header lacks `SYS / # / OBS TYPES`:
`_readheader_v3` never touches that label, so the guarded `try` block
passes, and the raw `KeyError` is raised later inside `_readblocks_v3`,
which `processrinexfile` does not wrap — the `KeyError` escapes the decode
entry point instead of the claimed `RinexError`. -/
theorem claim_c3_missing_header_error_kind :
    processrinexfile c3lines = .exn (.keyError sysObsLabel) := by
  decide

/-- C4.  A v2.1x epoch line whose seconds field is `30.5000000`: the code
computes `microsecond = int(float(second) % 1 * 100000)` — a factor of
`10^5`, not the `10^6` that the `datetime` microsecond unit requires — so
the recorded microsecond component is `50000` where the fractional part
times `10^6` is `500000` (all arithmetic here is exact in binary64). -/
theorem claim_c4_timestamp_resolution :
    epochDatetimeV21 1900 c4line = some ⟨1916, 1, 1, 0, 0, 30, 50000⟩ ∧
    pyFloat (pySlice c4line 16 26) = some (Rat.divInt 61 2) ∧
    truncQ (qMul (pyMod1 (Rat.divInt 61 2)) (qOfNat 1000000)) = 500000 ∧
    (50000 : Int) ≠ 500000 := by
  decide

/-- C5 counterexample.  In v3.x a data field lying past the end of a
physically shorter data line does not decode to the sentinel: the line is
not padded, `struct.unpack_from` requires the full 33 bytes for two
declared observables, and a 17-character line raises `struct.error` —
contradicting the claim that such a field never raises an error in both
format versions. -/
theorem claim_c5_counterexample :
    decodeLineV3 2 c5shortLine = .exn .structError ∧ c5shortLine.length = 17 := by
  decide

/-- C5 amended.  A data field consisting of only spaces decodes to the
not-a-number sentinel (never to zero and never to an error) in v2.1x —
including a field past the end of a physically shorter line, because every
v2.1x line is right-padded to 80 columns and the per-satellite group of
`1 + n/5` padded lines always covers the `16 n` bytes the unpack needs —
and in v3.x for any blank field of a line at least as long as the struct
format requires; a physically shorter v3.x line instead raises an error
(see the counterexample). -/
theorem claim_c5_amended (n : Nat) (rawLines : List (List Char)) (line : List Char) (j : Nat)
    (hrows : rawLines.length = 1 + n / 5)
    (hlen : 3 + 16 * (n - 1) + 14 ≤ line.length)
    (hj : j < n) :
    (∃ fields, decodeSatV21 n rawLines = .ok fields ∧
      ((∀ c ∈ pySlice (datastringV21 rawLines) (16 * j) (16 * j + 14), c = ' ') →
        fields[j]? = some none ∧ fields[j]? ≠ some (some 0))) ∧
    (∃ fields, decodeLineV3 n line = .ok fields ∧
      ((∀ c ∈ pySlice line (3 + 16 * j) (3 + 16 * j + 14), c = ' ') →
        fields[j]? = some none ∧ fields[j]? ≠ some (some 0))) := by
  constructor
  · have hbuf : 16 * n ≤ (datastringV21 rawLines).length := by
      have h1 := datastringV21_length_ge rawLines
      rw [hrows] at h1
      omega
    refine ⟨((List.range n).map
      (fun k => converttofloat (pySlice (datastringV21 rawLines) (16 * k) (16 * k + 14)))), ?_, ?_⟩
    · unfold decodeSatV21 unpackV21
      rw [if_neg (by omega)]
      simp
    · intro hblank
      have hf : ((List.range n).map
          (fun k => converttofloat (pySlice (datastringV21 rawLines) (16 * k) (16 * k + 14))))[j]? =
          some (converttofloat (pySlice (datastringV21 rawLines) (16 * j) (16 * j + 14))) :=
        get?_map_range _ n j hj
      rw [hf, converttofloat_blank hblank]
      exact ⟨rfl, by simp⟩
  · refine ⟨((List.range n).map
      (fun k => converttofloat (pySlice line (3 + 16 * k) (3 + 16 * k + 14)))), ?_, ?_⟩
    · unfold decodeLineV3 unpackV3
      rw [if_neg (by omega)]
      simp
    · intro hblank
      have hf : ((List.range n).map
          (fun k => converttofloat (pySlice line (3 + 16 * k) (3 + 16 * k + 14))))[j]? =
          some (converttofloat (pySlice line (3 + 16 * j) (3 + 16 * j + 14))) :=
        get?_map_range _ n j hj
      rw [hf, converttofloat_blank hblank]
      exact ⟨rfl, by simp⟩

/-- C5 witness: two declared observables, a single v2.1x physical line that
physically ends before the second field, and a full-width v3.x line whose
second field is blank; the blank/overhanging fields decode to the sentinel
and not to zero, with no error. -/
theorem claim_c5_witness :
    ((("  23619095.450".toList) :: []).length = 1 + 2 / 5 ∧
      3 + 16 * (2 - 1) + 14 ≤ (("G01  23619095.450".toList) ++ List.replicate 16 ' ').length) ∧
    ((∃ fields, decodeSatV21 2 [("  23619095.450".toList)] = .ok fields ∧
      ((∀ c ∈ pySlice (datastringV21 [("  23619095.450".toList)]) (16 * 1) (16 * 1 + 14), c = ' ') →
        fields[1]? = some none ∧ fields[1]? ≠ some (some 0))) ∧
    (∃ fields, decodeLineV3 2 (("G01  23619095.450".toList) ++ List.replicate 16 ' ') = .ok fields ∧
      ((∀ c ∈ pySlice (("G01  23619095.450".toList) ++ List.replicate 16 ' ')
          (3 + 16 * 1) (3 + 16 * 1 + 14), c = ' ') →
        fields[1]? = some none ∧ fields[1]? ≠ some (some 0)))) :=
  ⟨by decide,
   claim_c5_amended 2 [("  23619095.450".toList)]
     (("G01  23619095.450".toList) ++ List.replicate 16 ' ') 1
     (by decide) (by decide) (by decide)⟩

theorem sorted_prntoidx_lookup (ssl : List (Char × List Int)) (letter : Char)
    (pti : List (Int × Nat))
    (h : lookupA ((ssl.map (fun p => (p.1, sortInts p.2))).map
      (fun p => (p.1, enumIdx p.2))) letter = some pti) :
    ∃ prns, lookupA ssl letter = some prns ∧ pti = enumIdx (sortInts prns) := by
  rw [lookupA_map_value, lookupA_map_value] at h
  cases hl : lookupA ssl letter with
  | none => rw [hl] at h; exact Option.noConfusion h
  | some prns =>
    rw [hl] at h
    refine ⟨prns, rfl, ?_⟩
    exact (Option.some.injEq _ _ ▸ h).symm

/-- C8.  In both decoders, for every constellation with a PRN-to-index
mapping in the output, the keys of that mapping are exactly the PRNs that
appear with that constellation letter in some epoch satellite list
(`satset` is the union of the per-epoch lists, as the scanners compute
it). -/
theorem claim_c8_prn_sets
    (lines21 : List (List Char)) (header21 : HeaderMap)
    (headerlines21 : List Nat) (headerlengths21 : List Int)
    (satlists21 : List (List (List Char))) (satset21 : List (List Char)) (out21 : BlocksOut)
    (lines3 : List (List Char)) (header3 : HeaderMap) (headerlines3 : List Nat)
    (satlists3 : List (List (List Char))) (satset3 : List (List Char)) (out3 : BlocksOut)
    (hok21 : readblocksV21 lines21 header21 headerlines21 headerlengths21 satlists21 satset21 =
      .ok out21)
    (hmem21 : ∀ s, s ∈ satset21 ↔ ∃ sl ∈ satlists21, s ∈ sl)
    (hok3 : readblocksV3 lines3 header3 headerlines3 satlists3 satset3 = .ok out3)
    (hmem3 : ∀ s, s ∈ satset3 ↔ ∃ sl ∈ satlists3, s ∈ sl) :
    (∀ letter pti, lookupA out21.prntoidx letter = some pti →
      ∀ p : Int, p ∈ pti.map Prod.fst ↔
        ∃ sl ∈ satlists21, ∃ s ∈ sl, pyCharAt s 0 = some letter ∧ pyInt (s.drop 1) = some p) ∧
    (∀ letter pti, lookupA out3.prntoidx letter = some pti →
      ∀ p : Int, p ∈ pti.map Prod.fst ↔
        ∃ sl ∈ satlists3, ∃ s ∈ sl, pyCharAt s 0 = some letter ∧ pyInt (s.drop 1) = some p) := by
  constructor
  · obtain ⟨v, ssl, hv, happ, hssl, hpti⟩ :=
      readblocksV21_ok_elim _ _ _ _ _ _ _ hok21
    intro letter pti hlook p
    rw [hpti] at hlook
    obtain ⟨prns, hprns, rfl⟩ := sorted_prntoidx_lookup ssl letter pti hlook
    have hap := appendPrns_ok _ _ _ happ
    have hl2 := hap.2 letter
    rw [hprns] at hl2
    by_cases hmemL : letter ∈ lettersOf satset21
    · rw [if_pos hmemL] at hl2
      have hpr : prns = prnsFor satset21 letter := (Option.some.injEq _ _ ▸ hl2)
      subst hpr
      rw [enumIdx_keys]
      unfold sortInts
      rw [List.mem_insertionSort, mem_prnsFor]
      constructor
      · rintro ⟨s, hsset, hcs, hps⟩
        obtain ⟨sl, hsl, hs⟩ := (hmem21 s).mp hsset
        exact ⟨sl, hsl, s, hs, hcs, hps⟩
      · rintro ⟨sl, hsl, s, hs, hcs, hps⟩
        exact ⟨s, (hmem21 s).mpr ⟨sl, hsl, hs⟩, hcs, hps⟩
    · rw [if_neg hmemL] at hl2
      exact Option.noConfusion hl2
  · obtain ⟨v, ot, ssl0, hv, hot, happ, hssl, hpti, hobst⟩ :=
      readblocksV3_ok_elim _ _ _ _ _ _ hok3
    intro letter pti hlook p
    rw [hpti] at hlook
    obtain ⟨prns, hprns, rfl⟩ := sorted_prntoidx_lookup _ letter pti hlook
    have hap := appendPrns_ok _ _ _ happ
    have hotnd : ((ot.map Prod.fst)).Nodup :=
      obsTypesLoopV3_keys_nodup (splitlinesLC v) [] none ot hot List.nodup_nil
    have hndssl : (ssl0.map Prod.fst).Nodup := by rw [hap.1]; exact hotnd
    rw [lookupA_filter _ ssl0 hndssl letter] at hprns
    cases hl0 : lookupA ssl0 letter with
    | none => rw [hl0] at hprns; exact Option.noConfusion hprns
    | some prns0 =>
      rw [hl0] at hprns
      simp only [Option.some_bind] at hprns
      have hprns2 := hprns
      by_cases hne : decide ((letter, prns0).2 ≠ ([] : List Int)) = true
      · rw [if_pos hne] at hprns2
        have hpr0 : prns0 = prns := (Option.some.injEq _ _ ▸ hprns2)
        subst hpr0
        have hl2 := hap.2 letter
        rw [hl0] at hl2
        by_cases hmemL : letter ∈ ot.map Prod.fst
        · rw [if_pos hmemL] at hl2
          have hpr : prns0 = prnsFor satset3 letter := (Option.some.injEq _ _ ▸ hl2)
          subst hpr
          rw [enumIdx_keys]
          unfold sortInts
          rw [List.mem_insertionSort, mem_prnsFor]
          constructor
          · rintro ⟨s, hsset, hcs, hps⟩
            obtain ⟨sl, hsl, hs⟩ := (hmem3 s).mp hsset
            exact ⟨sl, hsl, s, hs, hcs, hps⟩
          · rintro ⟨sl, hsl, s, hs, hcs, hps⟩
            exact ⟨s, (hmem3 s).mpr ⟨sl, hsl, hs⟩, hcs, hps⟩
        · rw [if_neg hmemL] at hl2
          exact Option.noConfusion hl2
      · rw [if_neg hne] at hprns2
        exact Option.noConfusion hprns2

/-- C8 witness: the concrete v2.1x and v3.x record-decoder inputs
(`w21...`, `w3...`), both with a single GPS constellation. -/
theorem claim_c8_witness :
    ((∀ s, s ∈ w21satset ↔ ∃ sl ∈ w21satlists, s ∈ sl) ∧
      (∀ s, s ∈ w3satset ↔ ∃ sl ∈ w3satlists, s ∈ sl)) ∧
    ((∀ letter pti,
        lookupA (match readblocksV21 w21lines w21header w21headerlines w21headerlengths
            w21satlists w21satset with
          | .ok b => b
          | _ => ⟨[], [], [], []⟩).prntoidx letter = some pti →
        ∀ p : Int, p ∈ pti.map Prod.fst ↔
          ∃ sl ∈ w21satlists, ∃ s ∈ sl, pyCharAt s 0 = some letter ∧
            pyInt (s.drop 1) = some p) ∧
      (∀ letter pti,
        lookupA (match readblocksV3 w3lines w3header w3headerlines w3satlists w3satset with
          | .ok b => b
          | _ => ⟨[], [], [], []⟩).prntoidx letter = some pti →
        ∀ p : Int, p ∈ pti.map Prod.fst ↔
          ∃ sl ∈ w3satlists, ∃ s ∈ sl, pyCharAt s 0 = some letter ∧
            pyInt (s.drop 1) = some p)) :=
  ⟨⟨fun s => by simp [w21satset, w21satlists], fun s => by simp [w3satset, w3satlists]⟩,
   claim_c8_prn_sets w21lines w21header w21headerlines w21headerlengths w21satlists w21satset
     _ w3lines w3header w3headerlines w3satlists w3satset _
     (by decide) (fun s => by simp [w21satset, w21satlists]) (by decide)
     (fun s => by simp [w3satset, w3satlists])⟩

theorem prnsForF_eq_some {s : List Char} {l : Char} {p : Int}
    (h : (match pyCharAt s 0, pyInt (s.drop 1) with
      | some c, some q => if c = l then some q else none
      | _, _ => none) = some p) :
    pyCharAt s 0 = some l ∧ pyInt (s.drop 1) = some p := by
  cases hc : pyCharAt s 0 with
  | none => rw [hc] at h; exact Option.noConfusion h
  | some c =>
    rw [hc] at h
    cases hp : pyInt (s.drop 1) with
    | none => rw [hp] at h; exact Option.noConfusion h
    | some q =>
      rw [hp] at h
      have h2 : (if c = l then some q else none) = some p := h
      by_cases hcl : c = l
      · subst hcl
        rw [if_pos rfl] at h2
        exact ⟨rfl, h2⟩
      · rw [if_neg hcl] at h2
        exact Option.noConfusion h2

theorem prnsFor_nodup (satset : List (List Char)) (l : Char)
    (hnd : satset.Nodup)
    (hinj : ∀ s ∈ satset, ∀ t ∈ satset, pyCharAt s 0 = pyCharAt t 0 →
      pyInt (s.drop 1) = pyInt (t.drop 1) → s = t) :
    (prnsFor satset l).Nodup := by
  unfold prnsFor
  apply nodup_filterMap_on _ satset hnd
  intro a ha b hb c hca hcb
  obtain ⟨hca1, hca2⟩ := prnsForF_eq_some (Option.mem_def.mp hca)
  obtain ⟨hcb1, hcb2⟩ := prnsForF_eq_some (Option.mem_def.mp hcb)
  exact hinj a ha b hb (by rw [hca1, hcb1]) (by rw [hca2, hcb2])

/-- C10.  In both decoders, every returned per-constellation satellite list
is sorted in ascending PRN order without duplicates, and the PRN-to-index
mapping sends the `i`-th entry of that sorted list to `i` — array rows are
ordered by PRN value, not by order of first appearance.  The injectivity
hypotheses say distinct identifier strings denote distinct satellites (a
validity condition on the file). -/
theorem claim_c10_sorted_rows
    (lines21 : List (List Char)) (header21 : HeaderMap)
    (headerlines21 : List Nat) (headerlengths21 : List Int)
    (satlists21 : List (List (List Char))) (satset21 : List (List Char)) (out21 : BlocksOut)
    (lines3 : List (List Char)) (header3 : HeaderMap) (headerlines3 : List Nat)
    (satlists3 : List (List (List Char))) (satset3 : List (List Char)) (out3 : BlocksOut)
    (hok21 : readblocksV21 lines21 header21 headerlines21 headerlengths21 satlists21 satset21 =
      .ok out21)
    (hnd21 : satset21.Nodup)
    (hinj21 : ∀ s ∈ satset21, ∀ t ∈ satset21, pyCharAt s 0 = pyCharAt t 0 →
      pyInt (s.drop 1) = pyInt (t.drop 1) → s = t)
    (hok3 : readblocksV3 lines3 header3 headerlines3 satlists3 satset3 = .ok out3)
    (hnd3 : satset3.Nodup)
    (hinj3 : ∀ s ∈ satset3, ∀ t ∈ satset3, pyCharAt s 0 = pyCharAt t 0 →
      pyInt (s.drop 1) = pyInt (t.drop 1) → s = t) :
    (∀ letter sl, lookupA out21.systemsatlists letter = some sl →
      List.Sorted (· ≤ ·) sl ∧ sl.Nodup ∧
      ∃ pti, lookupA out21.prntoidx letter = some pti ∧
        ∀ (i : Nat) (hi : i < sl.length), lookupA pti sl[i] = some i) ∧
    (∀ letter sl, lookupA out3.systemsatlists letter = some sl →
      List.Sorted (· ≤ ·) sl ∧ sl.Nodup ∧
      ∃ pti, lookupA out3.prntoidx letter = some pti ∧
        ∀ (i : Nat) (hi : i < sl.length), lookupA pti sl[i] = some i) := by
  constructor
  · obtain ⟨v, ssl, hv, happ, hssl, hpti⟩ :=
      readblocksV21_ok_elim _ _ _ _ _ _ _ hok21
    intro letter sl hlook
    rw [hssl, lookupA_map_value] at hlook
    cases hprns : lookupA ssl letter with
    | none => rw [hprns] at hlook; exact Option.noConfusion hlook
    | some prns =>
      rw [hprns] at hlook
      have hsl : sl = sortInts prns := (Option.some.injEq _ _ ▸ hlook).symm
      subst hsl
      have hap := appendPrns_ok _ _ _ happ
      have hl2 := hap.2 letter
      rw [hprns] at hl2
      by_cases hmemL : letter ∈ lettersOf satset21
      · rw [if_pos hmemL] at hl2
        have hpr : prns = prnsFor satset21 letter := (Option.some.injEq _ _ ▸ hl2)
        subst hpr
        have hndp : (sortInts (prnsFor satset21 letter)).Nodup :=
          ((List.perm_insertionSort _ _).nodup_iff).mpr (prnsFor_nodup satset21 letter hnd21 hinj21)
        refine ⟨List.sorted_insertionSort _ _, hndp, enumIdx (sortInts (prnsFor satset21 letter)),
          ?_, fun i hi => lookupA_enumIdx _ hndp i hi⟩
        rw [hpti, lookupA_map_value, lookupA_map_value, hprns]
        rfl
      · rw [if_neg hmemL] at hl2
        exact Option.noConfusion hl2
  · obtain ⟨v, ot, ssl0, hv, hot, happ, hssl, hpti, hobst⟩ :=
      readblocksV3_ok_elim _ _ _ _ _ _ hok3
    intro letter sl hlook
    rw [hssl, lookupA_map_value] at hlook
    have hap := appendPrns_ok _ _ _ happ
    have hotnd : ((ot.map Prod.fst)).Nodup :=
      obsTypesLoopV3_keys_nodup (splitlinesLC v) [] none ot hot List.nodup_nil
    have hndssl : (ssl0.map Prod.fst).Nodup := by rw [hap.1]; exact hotnd
    rw [lookupA_filter _ ssl0 hndssl letter] at hlook
    cases hprns : lookupA ssl0 letter with
    | none => rw [hprns] at hlook; exact Option.noConfusion hlook
    | some prns =>
      rw [hprns] at hlook
      simp only [Option.some_bind] at hlook
      by_cases hne : decide ((letter, prns).2 ≠ ([] : List Int)) = true
      · rw [if_pos hne] at hlook
        simp only [Option.map_some'] at hlook
        have hsl : sl = sortInts prns := (Option.some.injEq _ _ ▸ hlook).symm
        subst hsl
        have hl2 := hap.2 letter
        rw [hprns] at hl2
        by_cases hmemL : letter ∈ ot.map Prod.fst
        · rw [if_pos hmemL] at hl2
          have hpr : prns = prnsFor satset3 letter := (Option.some.injEq _ _ ▸ hl2)
          subst hpr
          have hndp : (sortInts (prnsFor satset3 letter)).Nodup :=
            ((List.perm_insertionSort _ _).nodup_iff).mpr
              (prnsFor_nodup satset3 letter hnd3 hinj3)
          refine ⟨List.sorted_insertionSort _ _, hndp,
            enumIdx (sortInts (prnsFor satset3 letter)), ?_,
            fun i hi => lookupA_enumIdx _ hndp i hi⟩
          rw [hpti, lookupA_map_value, lookupA_map_value,
            lookupA_filter _ ssl0 hndssl letter, hprns]
          simp only [Option.some_bind]
          rw [if_pos hne]
          rfl
        · rw [if_neg hmemL] at hl2
          exact Option.noConfusion hl2
      · rw [if_neg hne] at hlook
        exact Option.noConfusion hlook

/-- C10 witness: the concrete record-decoder inputs, in which the
satellites appear out of PRN order (`G07` before `G01` in the v3 epoch;
`G02` before `G01` in the v2.1x epoch). -/
theorem claim_c10_witness :
    (w21satset.Nodup ∧ w3satset.Nodup) ∧
    ((∀ letter sl,
        lookupA (match readblocksV21 w21lines w21header w21headerlines w21headerlengths
            w21satlists w21satset with
          | .ok b => b
          | _ => ⟨[], [], [], []⟩).systemsatlists letter = some sl →
        List.Sorted (· ≤ ·) sl ∧ sl.Nodup ∧
        ∃ pti, lookupA (match readblocksV21 w21lines w21header w21headerlines w21headerlengths
            w21satlists w21satset with
          | .ok b => b
          | _ => ⟨[], [], [], []⟩).prntoidx letter = some pti ∧
          ∀ (i : Nat) (hi : i < sl.length), lookupA pti sl[i] = some i) ∧
      (∀ letter sl,
        lookupA (match readblocksV3 w3lines w3header w3headerlines w3satlists w3satset with
          | .ok b => b
          | _ => ⟨[], [], [], []⟩).systemsatlists letter = some sl →
        List.Sorted (· ≤ ·) sl ∧ sl.Nodup ∧
        ∃ pti, lookupA (match readblocksV3 w3lines w3header w3headerlines w3satlists
            w3satset with
          | .ok b => b
          | _ => ⟨[], [], [], []⟩).prntoidx letter = some pti ∧
          ∀ (i : Nat) (hi : i < sl.length), lookupA pti sl[i] = some i)) :=
  ⟨⟨by decide, by decide⟩,
   claim_c10_sorted_rows w21lines w21header w21headerlines w21headerlengths w21satlists
     w21satset _ w3lines w3header w3headerlines w3satlists w3satset _
     (by decide) (by decide) (by decide) (by decide) (by decide) (by decide)⟩

/-- C9.  A v2.1x epoch-start step with exactly 13 announced satellites:
the scanning loop records the epoch with header length `2` physical lines
(`1 + (13-1)//12`), and the single ordered satellite list consists of the
12 identifiers of the epoch line followed by the 1 identifier of the next
physical line (the loop advances to the continuation line after every 12th
identifier); the list has 13 entries of 3 characters each (when the two
lines physically contain the identifier columns). -/
theorem claim_c9_thirteen_sats (lines : List (List Char)) (rps : Nat) (cent : Int)
    (fuel i : Nat) (acc : ScanV21Out) (dt : PyDateTime)
    (hi : i < lines.length)
    (hpat : patMatchV21 (pySlice (lineAt lines i) 0 6) = true)
    (hflag : pyCharAt (lineAt lines i) 28 = some '0')
    (hdt : epochDatetimeV21 cent (lineAt lines i) = some dt)
    (hnum : pySlice (lineAt lines i) 29 32 = (" 13".toList))
    (hlen1 : 68 ≤ (lineAt lines i).length)
    (hlen2 : 35 ≤ (lineAt lines (i + 1)).length) :
    scanV21Loop lines rps cent (fuel + 1) i acc =
      scanV21Loop lines rps cent fuel (i + 13 * rps + 2)
        ⟨acc.headerlines ++ [i], acc.headerlengths ++ [2], acc.obstimes ++ [dt],
         acc.satlists ++ [collectSatsV21 lines i 13]⟩ ∧
    collectSatsV21 lines i 13 =
      (List.range 12).map (fun s => satSliceV21 (lineAt lines i) s) ++
        [satSliceV21 (lineAt lines (i + 1)) 0] ∧
    (collectSatsV21 lines i 13).length = 13 ∧
    (∀ s ∈ collectSatsV21 lines i 13, s.length = 3) := by
  have h0 : pyInt ['0'] = some 0 := by decide
  have h13 : pyInt (" 13".toList) = some 13 := by decide
  refine ⟨?_, collectSatsV21_thirteen lines i, ?_, ?_⟩
  · have hfd : (1 : Int) + ((13 : Int) - 1).fdiv 12 = 2 := by decide
    have hgt : ((13 : Int) > 12) = True := by simp
    have hfd1 : ((13 : Int) - 1).fdiv 12 = 1 := by decide
    have h133 : (13 : Int).toNat = 13 := by decide
    conv_lhs => rw [scanV21Loop]
    simp only [dif_pos hi, hpat, if_true, hflag, h0, hdt, hnum, h13, hfd, hgt, h133, hfd1,
      true_or]
    rw [if_neg (by omega : ¬((i : Int) + 1 + 13 * (rps : Int) + 1 < 0))]
    congr 1
    omega
  · rw [collectSatsV21_thirteen lines i, List.length_append, List.length_map,
      List.length_range, List.length_singleton]
  · intro s hs
    rw [collectSatsV21_thirteen lines i] at hs
    rcases List.mem_append.mp hs with h | h
    · obtain ⟨k, hk, rfl⟩ := List.mem_map.mp h
      have hk12 : k < 12 := List.mem_range.mp hk
      unfold satSliceV21
      rw [pySlice_length]
      omega
    · rw [List.mem_singleton.mp h]
      unfold satSliceV21
      rw [pySlice_length]
      omega

/-- C9 witness: a concrete two-line 13-satellite epoch (`c9lines`), scanned
from index 0. -/
theorem claim_c9_witness :
    (0 < c9lines.length ∧
      patMatchV21 (pySlice (lineAt c9lines 0) 0 6) = true ∧
      pyCharAt (lineAt c9lines 0) 28 = some '0' ∧
      epochDatetimeV21 1900 (lineAt c9lines 0) = some ⟨1916, 1, 1, 0, 0, 0, 0⟩ ∧
      pySlice (lineAt c9lines 0) 29 32 = (" 13".toList) ∧
      68 ≤ (lineAt c9lines 0).length ∧ 35 ≤ (lineAt c9lines 1).length) ∧
    (scanV21Loop c9lines 1 1900 (2 + 1) 0 ⟨[], [], [], []⟩ =
      scanV21Loop c9lines 1 1900 2 (0 + 13 * 1 + 2)
        ⟨[] ++ [0], [] ++ [2], [] ++ [⟨1916, 1, 1, 0, 0, 0, 0⟩],
         [] ++ [collectSatsV21 c9lines 0 13]⟩ ∧
      collectSatsV21 c9lines 0 13 =
        (List.range 12).map (fun s => satSliceV21 (lineAt c9lines 0) s) ++
          [satSliceV21 (lineAt c9lines (0 + 1)) 0] ∧
      (collectSatsV21 c9lines 0 13).length = 13 ∧
      (∀ s ∈ collectSatsV21 c9lines 0 13, s.length = 3)) :=
  ⟨by decide,
   claim_c9_thirteen_sats c9lines 1 1900 2 0 ⟨[], [], [], []⟩ ⟨1916, 1, 1, 0, 0, 0, 0⟩
     (by decide) (by decide) (by decide) (by decide) (by decide) (by decide) (by decide)⟩

/-- C6 counterexample.  The file `c6file` declares constellations G and R
but only G is ever observed, so the decoded dataset carries an `obstypes`
entry for R while `systemdata` does not.  `saverinextonpz` writes only the
constellations of `systemdata`, and `loadrinexfromnpz` rebuilds only those,
so the round trip silently drops the R observable-name list: the
deserialized dataset is not bit-identical to the decoded one. -/
theorem claim_c6_counterexample :
    processrinexfile c6file = .ok (decodeOrEmpty c6file) ∧
    lookupA (decodeOrEmpty c6file).obstypes 'R' = some [("C1C".toList)] ∧
    Py.bind (saverinextonpz (decodeOrEmpty c6file)) loadrinexfromnpz =
      .ok (roundtripD (decodeOrEmpty c6file)) ∧
    lookupA (roundtripD (decodeOrEmpty c6file)).obstypes 'R' = none ∧
    roundtripD (decodeOrEmpty c6file) ≠ decodeOrEmpty c6file := by
  decide

/-- The satellite list stored for constellation `l` by `saverinextonpz`. -/
def sslValOf (d : Dataset) (l : Char) : List Int := (lookupA d.systemsatlists l).getD []

def ptiValOf (d : Dataset) (l : Char) : List (Int × Nat) := (lookupA d.prntoidx l).getD []

def otValOf (d : Dataset) (l : Char) : List (List Char) := (lookupA d.obstypes l).getD []

def gridValOf (d : Dataset) (l : Char) : Grid := (lookupA d.systemdata l).getD []

/-- The four archive entries one constellation contributes. -/
def saveBlock (d : Dataset) (p : Char × Grid) : List (List Char × NpzEntry) :=
  [(p.1 :: sdSuffix, NpzEntry.grid p.2), (p.1 :: sslSuffix, NpzEntry.ints (sslValOf d p.1)),
   (p.1 :: ptiSuffix, NpzEntry.idxmap (ptiValOf d p.1)), (p.1 :: otSuffix, NpzEntry.strs (otValOf d p.1))]

/-- The full archive produced for a dataset whose auxiliary mappings cover
its `systemdata` constellations. -/
def saveRawOf (d : Dataset) : List (List Char × NpzEntry) :=
  (systemsKey, NpzEntry.sys (d.systemdata.map Prod.fst)) ::
    ((d.systemdata.map (saveBlock d)).flatten ++
      [(obstimesKey, NpzEntry.times d.obstimes), (headerKey, NpzEntry.hdr d.header)])

theorem saverinextonpz_eq_saveRawOf (d : Dataset)
    (h1 : d.systemsatlists.map Prod.fst = d.systemdata.map Prod.fst)
    (h2 : d.prntoidx.map Prod.fst = d.systemdata.map Prod.fst)
    (h3 : d.obstypes.map Prod.fst = d.systemdata.map Prod.fst) :
    saverinextonpz d = .ok (saveRawOf d) := by
  unfold saverinextonpz
  have hblocks : d.systemdata.mapM (fun p => do
      let sl ← ofOption (lookupA d.systemsatlists p.1) (.keyError [p.1])
      let pidx ← ofOption (lookupA d.prntoidx p.1) (.keyError [p.1])
      let ot ← ofOption (lookupA d.obstypes p.1) (.keyError [p.1])
      pure [(p.1 :: sdSuffix, NpzEntry.grid p.2), (p.1 :: sslSuffix, NpzEntry.ints sl),
        (p.1 :: ptiSuffix, NpzEntry.idxmap pidx), (p.1 :: otSuffix, NpzEntry.strs ot)]) =
      .ok (d.systemdata.map (saveBlock d)) := by
    apply mapM_ok
    intro p hp
    have hk : p.1 ∈ d.systemdata.map Prod.fst := List.mem_map_of_mem Prod.fst hp
    obtain ⟨sl, hsl⟩ := Option.isSome_iff_exists.mp
      (lookupA_isSome_of_mem_keys d.systemsatlists p.1 (h1 ▸ hk))
    obtain ⟨pidx, hpidx⟩ := Option.isSome_iff_exists.mp
      (lookupA_isSome_of_mem_keys d.prntoidx p.1 (h2 ▸ hk))
    obtain ⟨ot, hot⟩ := Option.isSome_iff_exists.mp
      (lookupA_isSome_of_mem_keys d.obstypes p.1 (h3 ▸ hk))
    simp [hsl, hpidx, hot, saveBlock, sslValOf, ptiValOf, otValOf]
  rw [hblocks]
  rfl

theorem lookup_saveBlock_sd (d : Dataset) (p : Char × Grid) :
    lookupA (saveBlock d p) (p.1 :: sdSuffix) = some (NpzEntry.grid p.2) := by
  simp [saveBlock, lookupA]

theorem lookup_saveBlock_ssl (d : Dataset) (p : Char × Grid) :
    lookupA (saveBlock d p) (p.1 :: sslSuffix) = some (NpzEntry.ints (sslValOf d p.1)) := by
  have hne : sdSuffix ≠ sslSuffix := by decide
  simp [saveBlock, lookupA, hne]

theorem lookup_saveBlock_pti (d : Dataset) (p : Char × Grid) :
    lookupA (saveBlock d p) (p.1 :: ptiSuffix) = some (NpzEntry.idxmap (ptiValOf d p.1)) := by
  have hne1 : sdSuffix ≠ ptiSuffix := by decide
  have hne2 : sslSuffix ≠ ptiSuffix := by decide
  simp [saveBlock, lookupA, hne1, hne2]

theorem lookup_saveBlock_ot (d : Dataset) (p : Char × Grid) :
    lookupA (saveBlock d p) (p.1 :: otSuffix) = some (NpzEntry.strs (otValOf d p.1)) := by
  have hne1 : sdSuffix ≠ otSuffix := by decide
  have hne2 : sslSuffix ≠ otSuffix := by decide
  have hne3 : ptiSuffix ≠ otSuffix := by decide
  simp [saveBlock, lookupA, hne1, hne2, hne3]

theorem lookup_saveBlock_other (d : Dataset) (p : Char × Grid) (l : Char) (suf : List Char)
    (hl : l ≠ p.1) :
    lookupA (saveBlock d p) (l :: suf) = none := by
  have h := Ne.symm hl
  simp [saveBlock, lookupA, h]

theorem lookup_blocks_flatten (d : Dataset) :
    (sd : List (Char × Grid)) → ((sd.map Prod.fst).Nodup) → ∀ p ∈ sd, ∀ suf v,
      lookupA (saveBlock d p) (p.1 :: suf) = some v →
      lookupA ((sd.map (saveBlock d)).flatten) (p.1 :: suf) = some v
  | [], _, p, hp => absurd hp (List.not_mem_nil p)
  | q :: t, hnd, p, hp => by
    intro suf v hv
    have hnc := List.nodup_cons.mp (by rw [List.map_cons] at hnd; exact hnd)
    rw [List.map_cons, List.flatten_cons, lookupA_append]
    rcases List.mem_cons.mp hp with h | h
    · subst h
      rw [hv]
    · have hqp : p.1 ≠ q.1 := by
        intro he
        exact hnc.1 (he ▸ List.mem_map_of_mem Prod.fst h)
      rw [lookup_saveBlock_other d q p.1 suf hqp]
      exact lookup_blocks_flatten d t hnc.2 p h suf v hv

theorem keys_blocks_long (d : Dataset) :
    (sd : List (Char × Grid)) → ∀ k ∈ ((sd.map (saveBlock d)).flatten).map Prod.fst,
      9 ≤ k.length
  | [], k, hk => absurd hk (by simp)
  | q :: t, k, hk => by
    rw [List.map_cons, List.flatten_cons, List.map_append] at hk
    rcases List.mem_append.mp hk with h | h
    · have h9 : ∀ x ∈ (saveBlock d q).map Prod.fst, 9 ≤ x.length := by
        intro x hx
        simp only [saveBlock, List.map_cons, List.map_nil, List.mem_cons,
          List.not_mem_nil, or_false] at hx
        rcases hx with rfl | rfl | rfl | rfl
        · rw [List.length_cons]
          have hten : sdSuffix.length = 10 := by decide
          omega
        · rw [List.length_cons]
          have hten : sslSuffix.length = 14 := by decide
          omega
        · rw [List.length_cons]
          have hten : ptiSuffix.length = 8 := by decide
          omega
        · rw [List.length_cons]
          have hten : otSuffix.length = 8 := by decide
          omega
      exact h9 k h
    · exact keys_blocks_long d t k h

theorem lookup_blocks_flatten_short (d : Dataset) (sd : List (Char × Grid)) (k : List Char)
    (hk : k.length < 9) :
    lookupA ((sd.map (saveBlock d)).flatten) k = none := by
  apply lookupA_none_of_not_mem_keys
  intro hmem
  have := keys_blocks_long d sd k hmem
  omega

theorem lookup_saveRawOf_block (d : Dataset)
    (hnd : (d.systemdata.map Prod.fst).Nodup)
    (p : Char × Grid) (hp : p ∈ d.systemdata) (suf : List Char) (v : NpzEntry)
    (hsuf : 9 ≤ (p.1 :: suf).length)
    (hv : lookupA (saveBlock d p) (p.1 :: suf) = some v) :
    lookupA (saveRawOf d) (p.1 :: suf) = some v := by
  unfold saveRawOf
  rw [lookupA]
  have h7 : systemsKey.length = 7 := by decide
  rw [if_neg (ne_of_length_ne (by omega))]
  rw [lookupA_append, lookup_blocks_flatten d d.systemdata hnd p hp suf v hv]

theorem getEntry_saveRawOf_tail (d : Dataset) :
    getEntry (saveRawOf d) obstimesKey = .ok (NpzEntry.times d.obstimes) ∧
    getEntry (saveRawOf d) headerKey = .ok (NpzEntry.hdr d.header) := by
  have hob : obstimesKey.length = 8 := by decide
  have hhd : headerKey.length = 6 := by decide
  have h7 : systemsKey.length = 7 := by decide
  constructor
  · unfold getEntry saveRawOf
    rw [lookupA, if_neg (ne_of_length_ne (by omega)), lookupA_append,
      lookup_blocks_flatten_short d d.systemdata obstimesKey (by omega)]
    have : lookupA [(obstimesKey, NpzEntry.times d.obstimes), (headerKey, NpzEntry.hdr d.header)]
        obstimesKey = some (NpzEntry.times d.obstimes) := by
      simp [lookupA]
    rw [this]
    rfl
  · unfold getEntry saveRawOf
    rw [lookupA, if_neg (ne_of_length_ne (by omega)), lookupA_append,
      lookup_blocks_flatten_short d d.systemdata headerKey (by omega)]
    have : lookupA [(obstimesKey, NpzEntry.times d.obstimes), (headerKey, NpzEntry.hdr d.header)]
        headerKey = some (NpzEntry.hdr d.header) := by
      have hne : obstimesKey ≠ headerKey := by decide
      simp [lookupA, hne]
    rw [this]
    rfl

theorem load_saveRawOf (d : Dataset)
    (hnd : (d.systemdata.map Prod.fst).Nodup)
    (h1 : d.systemsatlists.map Prod.fst = d.systemdata.map Prod.fst)
    (h2 : d.prntoidx.map Prod.fst = d.systemdata.map Prod.fst)
    (h3 : d.obstypes.map Prod.fst = d.systemdata.map Prod.fst) :
    loadrinexfromnpz (saveRawOf d) = .ok d := by
  have hsys : getEntry (saveRawOf d) systemsKey =
      .ok (NpzEntry.sys (d.systemdata.map Prod.fst)) := by
    unfold getEntry saveRawOf
    simp [lookupA]
  have hcomps : (d.systemdata.map Prod.fst).mapM (loadComp (saveRawOf d)) =
      .ok ((d.systemdata.map Prod.fst).map (fun l =>
        ((l, gridValOf d l), (l, sslValOf d l), (l, ptiValOf d l), (l, otValOf d l)))) := by
    apply mapM_ok
    intro l hl
    obtain ⟨p, hp, hpl⟩ := List.mem_map.mp hl
    subst hpl
    have hsd10 : sdSuffix.length = 10 := by decide
    have hssl14 : sslSuffix.length = 14 := by decide
    have hpti8 : ptiSuffix.length = 8 := by decide
    have hot8 : otSuffix.length = 8 := by decide
    have hgv : gridValOf d p.1 = p.2 := by
      unfold gridValOf
      rw [lookupA_of_mem d.systemdata hnd p hp]
      rfl
    have e1 := lookup_saveRawOf_block d hnd p hp sdSuffix _
      (by rw [List.length_cons]; omega) (lookup_saveBlock_sd d p)
    have e2 := lookup_saveRawOf_block d hnd p hp sslSuffix _
      (by rw [List.length_cons]; omega) (lookup_saveBlock_ssl d p)
    have e3 := lookup_saveRawOf_block d hnd p hp ptiSuffix _
      (by rw [List.length_cons]; omega) (lookup_saveBlock_pti d p)
    have e4 := lookup_saveRawOf_block d hnd p hp otSuffix _
      (by rw [List.length_cons]; omega) (lookup_saveBlock_ot d p)
    simp [loadComp, getEntry, e1, e2, e3, e4, hgv]
  unfold loadrinexfromnpz
  rw [hsys]
  simp only [Py.bind_eq, Py.ok_bind]
  rw [hcomps]
  simp only [Py.ok_bind]
  rw [(getEntry_saveRawOf_tail d).2]
  simp only [Py.ok_bind]
  rw [(getEntry_saveRawOf_tail d).1]
  simp only [Py.ok_bind, Py.pure_eq]
  have c1 : (((d.systemdata.map Prod.fst).map (fun l =>
      ((l, gridValOf d l), (l, sslValOf d l), (l, ptiValOf d l), (l, otValOf d l)))).map
        (fun q => q.1)) = d.systemdata := by
    rw [List.map_map]
    have := map_keys_lookup_eq_self d.systemdata hnd ([] : Grid)
    simpa [gridValOf, Function.comp] using this
  have c2 : (((d.systemdata.map Prod.fst).map (fun l =>
      ((l, gridValOf d l), (l, sslValOf d l), (l, ptiValOf d l), (l, otValOf d l)))).map
        (fun q => q.2.1)) = d.systemsatlists := by
    rw [List.map_map]
    have := map_keys_lookup_eq_self d.systemsatlists (h1 ▸ hnd) ([] : List Int)
    rw [h1] at this
    simpa [sslValOf, Function.comp] using this
  have c3 : (((d.systemdata.map Prod.fst).map (fun l =>
      ((l, gridValOf d l), (l, sslValOf d l), (l, ptiValOf d l), (l, otValOf d l)))).map
        (fun q => q.2.2.1)) = d.prntoidx := by
    rw [List.map_map]
    have := map_keys_lookup_eq_self d.prntoidx (h2 ▸ hnd) ([] : List (Int × Nat))
    rw [h2] at this
    simpa [ptiValOf, Function.comp] using this
  have c4 : (((d.systemdata.map Prod.fst).map (fun l =>
      ((l, gridValOf d l), (l, sslValOf d l), (l, ptiValOf d l), (l, otValOf d l)))).map
        (fun q => q.2.2.2)) = d.obstypes := by
    rw [List.map_map]
    have := map_keys_lookup_eq_self d.obstypes (h3 ▸ hnd) ([] : List (List Char))
    rw [h3] at this
    simpa [otValOf, Function.comp] using this
  rw [c1, c2, c3, c4]

/-- C6 amended.  Serialize-then-deserialize reproduces the dataset exactly
whenever the satellite-list, index-map and observable mappings cover
exactly the constellations of `systemdata` (always true for v2.1x decodes;
a v3.x decode can carry `obstypes` entries for declared-but-unobserved
constellations, and those — and only those — are dropped by the round
trip, as the counterexample shows). -/
theorem claim_c6_amended (d : Dataset)
    (hnd : (d.systemdata.map Prod.fst).Nodup)
    (h1 : d.systemsatlists.map Prod.fst = d.systemdata.map Prod.fst)
    (h2 : d.prntoidx.map Prod.fst = d.systemdata.map Prod.fst)
    (h3 : d.obstypes.map Prod.fst = d.systemdata.map Prod.fst) :
    Py.bind (saverinextonpz d) loadrinexfromnpz = .ok d := by
  rw [saverinextonpz_eq_saveRawOf d h1 h2 h3, Py.ok_bind]
  exact load_saveRawOf d hnd h1 h2 h3

/-- C6 witness: a one-constellation dataset satisfying the coverage
hypotheses round-trips to itself. -/
theorem claim_c6_witness :
    (((⟨[('G', [[[some (Rat.divInt 1 2)]]])], [('G', [1])], [('G', [(1, 0)])],
        [('G', [("C1C".toList)])], [], []⟩ : Dataset).systemdata.map Prod.fst).Nodup ∧
      True) ∧
    Py.bind (saverinextonpz ⟨[('G', [[[some (Rat.divInt 1 2)]]])], [('G', [1])],
        [('G', [(1, 0)])], [('G', [("C1C".toList)])], [], []⟩) loadrinexfromnpz =
      .ok ⟨[('G', [[[some (Rat.divInt 1 2)]]])], [('G', [1])], [('G', [(1, 0)])],
        [('G', [("C1C".toList)])], [], []⟩ :=
  ⟨⟨by decide, trivial⟩,
   claim_c6_amended _ (by decide) (by decide) (by decide) (by decide)⟩

theorem keys_map_keyed {α β γ : Type} (h : α → β → γ) (m : List (α × β)) :
    (m.map (fun p => (p.1, h p.1 p.2))).map Prod.fst = m.map Prod.fst := by
  rw [List.map_map]
  exact List.map_congr_left (fun p _ => rfl)

/-- **C7**, counterexample to the claim as stated.  A v2.1x epoch whose
satellite list names the same satellite as the two distinct strings `G01`
and `G 1` (both parse to PRN 1): the decoder returns normally, the
allocated array has satellite dimension `len(systemsatlists['G']) = 2`
(one row per duplicate), but the `prntoidx['G']` dict
`{prn: idx for idx, prn in enumerate([1, 1])}` collapses the duplicate key
and has size 1, so the claimed shape `(epochs, size of the PRN map,
observables)` fails.  Normal return is insensitive to the dict collapse —
the fill loop only needs the key `1` to be present — so the model's `.ok`
is exact here, and the dict size is computed by the exact dict semantics
`enumIdxDict` over the sorted satellite list the decoder returns. -/
theorem claim_c7_counterexample :
    ∃ out grid sl,
      readblocksV21 w21lines w21header w21headerlines w21headerlengths c7satlists c7satset =
        .ok out ∧
      lookupA out.systemdata 'G' = some grid ∧
      lookupA out.systemsatlists 'G' = some sl ∧
      grid.length = 1 ∧
      (∀ ep ∈ grid, ep.length = 2) ∧
      (enumIdxDict sl).length = 1 ∧
      ∃ ep ∈ grid, ep.length ≠ (enumIdxDict sl).length :=
  ⟨c7out, c7grid, c7sl, by decide⟩

/-- **C7**, amended.  After v2.1x decoding, for every constellation the
returned array's observable axis and the returned observable-name list
consist of exactly those columns that hold at least one non-sentinel value
anywhere in the constellation (the kept index set is characterised exactly
and is strictly increasing, i.e. original order), and every returned array
has shape (number of recognized epoch records, size of that
constellation's PRN-to-index map, length of that constellation's pruned
observable list).  The `Nodup`/injectivity hypotheses say distinct
identifier strings denote distinct satellites (a validity condition on the
file, as in the sorting claim); they make the per-constellation PRN lists
duplicate-free — the returned `pti` then has pairwise-distinct keys, so
its length is the size of the Python dict and the shape conjuncts read as
the claim intends.  `claim_c7_counterexample` shows the claim failing
without this proviso. -/
theorem claim_c7_pruning_shape
    (lines : List (List Char)) (header : HeaderMap)
    (headerlines : List Nat) (headerlengths : List Int)
    (satlists : List (List (List Char))) (satset : List (List Char))
    (out : BlocksOut) (letter : Char) (grid : Grid)
    (hok : readblocksV21 lines header headerlines headerlengths satlists satset = .ok out)
    (hgrid : lookupA out.systemdata letter = some grid)
    (hnd : satset.Nodup)
    (hinj : ∀ s ∈ satset, ∀ t ∈ satset, pyCharAt s 0 = pyCharAt t 0 →
      pyInt (s.drop 1) = pyInt (t.drop 1) → s = t) :
    ∃ v ssl filled G pti,
      lookupA header obsTypesLabel = some v ∧
      appendPrns (lettersOf satset) satset = .ok ssl ∧
      fillV21 lines (pySplit (v.drop 6)).length (1 + (pySplit (v.drop 6)).length / 5)
        headerlines headerlengths satlists
        ((ssl.map (fun p => (p.1, sortInts p.2))).map (fun p => (p.1, enumIdx p.2)))
        ((ssl.map (fun p => (p.1, sortInts p.2))).map
          (fun p => (p.1, nanGrid headerlines.length p.2.length (pySplit (v.drop 6)).length))) =
        .ok filled ∧
      lookupA filled letter = some G ∧
      grid = colSelect G (keptObservables G (pySplit (v.drop 6)).length) ∧
      (∀ j, j ∈ keptObservables G (pySplit (v.drop 6)).length ↔
        j < (pySplit (v.drop 6)).length ∧ ∃ ep ∈ G, ∃ row ∈ ep, (row.getD j none).isSome) ∧
      List.Pairwise (fun a b => a < b) (keptObservables G (pySplit (v.drop 6)).length) ∧
      lookupA out.obstypes letter =
        some ((keptObservables G (pySplit (v.drop 6)).length).map
          (fun j => (pySplit (v.drop 6)).getD j [])) ∧
      lookupA out.prntoidx letter = some pti ∧
      (pti.map Prod.fst).Nodup ∧
      grid.length = headerlines.length ∧
      (∀ ep ∈ grid, ep.length = pti.length) ∧
      (∀ ep ∈ grid, ∀ row ∈ ep, row.length =
        (keptObservables G (pySplit (v.drop 6)).length).length) := by
  obtain ⟨v, ssl, filled, hv, happ, hfill, hout⟩ :=
    readblocksV21_ok_elim_full _ _ _ _ _ _ _ hok
  subst hout
  have hkeys0 := appendPrns_ok _ _ _ happ
  have hgrid2 : lookupA (filled.map (fun p =>
      (p.1, colSelect p.2 (keptObservables p.2 (pySplit (v.drop 6)).length)))) letter =
      some grid := hgrid
  have hmapsd2 : lookupA (filled.map (fun p =>
      (p.1, colSelect p.2 (keptObservables p.2 (pySplit (v.drop 6)).length)))) letter =
      (lookupA filled letter).map
        (fun g => colSelect g (keptObservables g (pySplit (v.drop 6)).length)) :=
    lookupA_map_keyed
      (fun (_ : Char) (g : Grid) => colSelect g (keptObservables g (pySplit (v.drop 6)).length))
      filled letter
  rw [hmapsd2] at hgrid2
  cases hG : lookupA filled letter with
  | none =>
    rw [hG] at hgrid2
    exact Option.noConfusion hgrid2
  | some G =>
    rw [hG] at hgrid2
    simp only [Option.map_some'] at hgrid2
    have hgeq : grid = colSelect G (keptObservables G (pySplit (v.drop 6)).length) :=
      (Option.some.inj hgrid2).symm
    have hinv0 : FillInv headerlines.length (pySplit (v.drop 6)).length
        (fun l => ((lookupA (ssl.map (fun p => (p.1, sortInts p.2))) l).getD []).length)
        (lettersOf satset)
        ((ssl.map (fun p => (p.1, sortInts p.2))).map
          (fun p => (p.1, nanGrid headerlines.length p.2.length
            (pySplit (v.drop 6)).length))) := by
      refine ⟨?_, ?_⟩
      · have h1b : (((ssl.map (fun p => (p.1, sortInts p.2))).map
            (fun p => (p.1, nanGrid headerlines.length p.2.length
              (pySplit (v.drop 6)).length))).map Prod.fst) =
            ((ssl.map (fun p => (p.1, sortInts p.2))).map Prod.fst) :=
          keys_map_keyed
            (fun (_ : Char) (prns : List Int) =>
              nanGrid headerlines.length prns.length (pySplit (v.drop 6)).length)
            (ssl.map (fun p => (p.1, sortInts p.2)))
        have h2b : ((ssl.map (fun p => (p.1, sortInts p.2))).map Prod.fst) =
            ssl.map Prod.fst :=
          keys_map_keyed (fun (_ : Char) (prns : List Int) => sortInts prns) ssl
        rw [h1b, h2b]
        exact hkeys0.1
      · intro l g hlg
        have hm2 : lookupA ((ssl.map (fun p => (p.1, sortInts p.2))).map
            (fun p => (p.1, nanGrid headerlines.length p.2.length
              (pySplit (v.drop 6)).length))) l =
            (lookupA (ssl.map (fun p => (p.1, sortInts p.2))) l).map
              (fun prns => nanGrid headerlines.length prns.length
                (pySplit (v.drop 6)).length) :=
          lookupA_map_keyed
            (fun (_ : Char) (prns : List Int) =>
              nanGrid headerlines.length prns.length (pySplit (v.drop 6)).length)
            (ssl.map (fun p => (p.1, sortInts p.2))) l
        rw [hm2] at hlg
        cases hls : lookupA (ssl.map (fun p => (p.1, sortInts p.2))) l with
        | none =>
          rw [hls] at hlg
          exact Option.noConfusion hlg
        | some prns =>
          rw [hls] at hlg
          simp only [Option.map_some'] at hlg
          have hge : g = nanGrid headerlines.length prns.length (pySplit (v.drop 6)).length :=
            (Option.some.inj hlg).symm
          subst hge
          show GridShape _ headerlines.length
            (((lookupA (ssl.map (fun p => (p.1, sortInts p.2))) l).getD []).length)
            (pySplit (v.drop 6)).length
          rw [hls]
          exact nanGrid_shape _ _ _
    have hinvF := fillV21_preserves _ filled hinv0 hfill
    have hkeysF : filled.map Prod.fst = lettersOf satset := hinvF.1
    have hmemletter : letter ∈ lettersOf satset := by
      have hmk := mem_keys_of_lookupA_some filled hG
      rw [hkeysF] at hmk
      exact hmk
    have hsorted : lookupA (ssl.map (fun p => (p.1, sortInts p.2))) letter =
        some (sortInts (prnsFor satset letter)) := by
      rw [lookupA_map_value, hkeys0.2 letter, if_pos hmemletter]
      rfl
    have hGshape0 : GridShape G headerlines.length
        (((lookupA (ssl.map (fun p => (p.1, sortInts p.2))) letter).getD []).length)
        (pySplit (v.drop 6)).length := hinvF.2 letter G hG
    rw [hsorted] at hGshape0
    have hGshape : GridShape G headerlines.length
        (sortInts (prnsFor satset letter)).length (pySplit (v.drop 6)).length := hGshape0
    have hpti : lookupA ((ssl.map (fun p => (p.1, sortInts p.2))).map
        (fun p => (p.1, enumIdx p.2))) letter =
        some (enumIdx (sortInts (prnsFor satset letter))) := by
      rw [lookupA_map_value, hsorted]
      rfl
    have hmapot2 : lookupA (((lettersOf satset).map (fun l => (l, pySplit (v.drop 6)))).map
        (fun p => (p.1,
          match lookupA filled p.1 with
          | some g => (keptObservables g (pySplit (v.drop 6)).length).map
              (fun j => p.2.getD j [])
          | none => p.2))) letter =
        (lookupA ((lettersOf satset).map (fun l => (l, pySplit (v.drop 6)))) letter).map
          (fun names =>
            match lookupA filled letter with
            | some g => (keptObservables g (pySplit (v.drop 6)).length).map
                (fun j => names.getD j [])
            | none => names) :=
      lookupA_map_keyed
        (fun (k : Char) (names : List (List Char)) =>
          match lookupA filled k with
          | some g => (keptObservables g (pySplit (v.drop 6)).length).map
              (fun j => names.getD j [])
          | none => names)
        ((lettersOf satset).map (fun l => (l, pySplit (v.drop 6)))) letter
    have hconst : lookupA ((lettersOf satset).map (fun l => (l, pySplit (v.drop 6)))) letter =
        some (pySplit (v.drop 6)) := by
      have h0 := lookupA_const_map (pySplit (v.drop 6)) letter (lettersOf satset)
      rw [h0, if_pos hmemletter]
    have hotFinal : lookupA (((lettersOf satset).map (fun l => (l, pySplit (v.drop 6)))).map
        (fun p => (p.1,
          match lookupA filled p.1 with
          | some g => (keptObservables g (pySplit (v.drop 6)).length).map
              (fun j => p.2.getD j [])
          | none => p.2))) letter =
        some ((keptObservables G (pySplit (v.drop 6)).length).map
          (fun j => (pySplit (v.drop 6)).getD j [])) := by
      rw [hmapot2, hconst, hG]
      rfl
    refine ⟨v, ssl, filled, G, enumIdx (sortInts (prnsFor satset letter)),
      hv, happ, hfill, hG, hgeq,
      fun j => mem_keptObservables G (pySplit (v.drop 6)).length j,
      keptObservables_pairwise G _, hotFinal, hpti, ?_, ?_, ?_, ?_⟩
    · rw [enumIdx_keys]
      exact ((List.perm_insertionSort _ _).nodup_iff).mpr (prnsFor_nodup satset letter hnd hinj)
    · rw [hgeq]
      unfold colSelect
      rw [List.length_map]
      exact hGshape.1
    · intro ep hep
      rw [hgeq] at hep
      unfold colSelect at hep
      obtain ⟨epG, hepG, hepEq⟩ := List.mem_map.mp hep
      subst hepEq
      rw [List.length_map, enumIdx_length]
      exact hGshape.2.1 epG hepG
    · intro ep hep row hrow
      rw [hgeq] at hep
      unfold colSelect at hep
      obtain ⟨epG, hepG, hepEq⟩ := List.mem_map.mp hep
      subst hepEq
      obtain ⟨rowG, hrowG, hrowEq⟩ := List.mem_map.mp hrow
      subst hrowEq
      exact List.length_map _ _

/-- The decoded record set of the concrete v2.1x decoder input `w21...`. -/
def w21out : BlocksOut :=
  match readblocksV21 w21lines w21header w21headerlines w21headerlengths w21satlists
      w21satset with
  | .ok b => b
  | _ => ⟨[], [], [], []⟩

/-- The GPS array of that decode. -/
def w21grid : Grid := (lookupA w21out.systemdata 'G').getD []

/-- C7 witness: the concrete v2.1x decoder input `w21...`, constellation
`G`, whose two satellite identifiers are distinct strings with distinct
PRNs. -/
theorem claim_c7_witness :
    (w21satset.Nodup ∧
      (∀ s ∈ w21satset, ∀ t ∈ w21satset, pyCharAt s 0 = pyCharAt t 0 →
        pyInt (s.drop 1) = pyInt (t.drop 1) → s = t)) ∧
    ∃ v ssl filled G pti,
      lookupA w21header obsTypesLabel = some v ∧
      appendPrns (lettersOf w21satset) w21satset = .ok ssl ∧
      fillV21 w21lines (pySplit (v.drop 6)).length (1 + (pySplit (v.drop 6)).length / 5)
        w21headerlines w21headerlengths w21satlists
        ((ssl.map (fun p => (p.1, sortInts p.2))).map (fun p => (p.1, enumIdx p.2)))
        ((ssl.map (fun p => (p.1, sortInts p.2))).map
          (fun p => (p.1, nanGrid w21headerlines.length p.2.length
            (pySplit (v.drop 6)).length))) =
        .ok filled ∧
      lookupA filled 'G' = some G ∧
      w21grid = colSelect G (keptObservables G (pySplit (v.drop 6)).length) ∧
      (∀ j, j ∈ keptObservables G (pySplit (v.drop 6)).length ↔
        j < (pySplit (v.drop 6)).length ∧ ∃ ep ∈ G, ∃ row ∈ ep, (row.getD j none).isSome) ∧
      List.Pairwise (fun a b => a < b) (keptObservables G (pySplit (v.drop 6)).length) ∧
      lookupA w21out.obstypes 'G' =
        some ((keptObservables G (pySplit (v.drop 6)).length).map
          (fun j => (pySplit (v.drop 6)).getD j [])) ∧
      lookupA w21out.prntoidx 'G' = some pti ∧
      (pti.map Prod.fst).Nodup ∧
      w21grid.length = w21headerlines.length ∧
      (∀ ep ∈ w21grid, ep.length = pti.length) ∧
      (∀ ep ∈ w21grid, ∀ row ∈ ep, row.length =
        (keptObservables G (pySplit (v.drop 6)).length).length) :=
  ⟨⟨by decide, by decide⟩,
   claim_c7_pruning_shape w21lines w21header w21headerlines w21headerlengths w21satlists
     w21satset w21out 'G' w21grid (by decide) (by decide) (by decide) (by decide)⟩

end Rinpy
